import Mathlib

/-
Verification of the orchestration engine of the interpreter-tools repository.

The development shallowly embeds the TypeScript sources:
  * languages.ts          (LanguageConfig, defaultLanguageConfigs, LanguageRegistry)
  * container-manager.ts  (ContainerManager: pool, createContainer,
                           getContainerFromPool, returnContainerToPool,
                           cleanupPool, removeContainerAndDir)
  * execution-engine.ts   (SessionManager, ExecutionEngine: createSession,
                           executeCode, executeInContainer, installDependencies,
                           calculateDepsChecksum, cleanupSession,
                           cleanWorkspaceKeepGenerated, listWorkspaceFiles,
                           addFileFromBase64, readFileBase64)

Modelling conventions:
  * Stateful JS objects become a `World` record threaded through functions;
    every engine operation returns `(Except String α) × World` so that the
    post-state is observable even on the error (thrown-exception) path.
  * Container-runtime I/O (docker inspect/exec results, uuids, clocks, the
    files a container writes into its workspace) is supplied by explicit
    oracle records (`RunEnv`, `PoolEnv`, `CreateOracle`); the engine logic
    over those answers is translated from the source.
  * JS `x || y` on strings/numbers is modelled by `jsOrStr` / `jsOrExitCode`
    (0 and the empty string are falsy); `x ?? y` is `Option.getD`.
  * SHA-256 (node crypto) is an opaque deterministic function; all
    definitions take it as an explicit `hash : String → String` parameter.
  * Machine integers are Nat/Int; byte values are Nat with explicit < 256
    bounds where they matter.
-/

namespace InterpreterTools

/-! ## Generic helpers -/

/-- Byte contents of a string written to a file, as naturals. Code points
stand in for the UTF-8 encoding: no claim inspects the byte encoding of
prepared-file contents, only file paths and byte-list equality. -/
def strToBytes (s : String) : List Nat :=
  s.toList.map (·.toNat)

/-- String prefix test over the character lists (`String.startsWith` /
`String.isPrefixOf` of the source, in a form the kernel evaluates). -/
def strIsPrefixOf (p s : String) : Bool := p.toList.isPrefixOf s.toList

/-- Split a character list at a separator character. -/
def splitOnChar (c : Char) : List Char → List (List Char)
  | [] => [[]]
  | a :: as =>
    match splitOnChar c as with
    | [] => [[a]]
    | g :: gs => if a = c then [] :: g :: gs else (a :: g) :: gs

/-- Split a path on slashes (`p.splitOn "/"`). -/
def splitPath (p : String) : List String := (splitOnChar '/' p.toList).map String.mk

/-- Whitespace for trimming. -/
def isWS (c : Char) : Bool := c = ' ' || c = '\n' || c = '\t' || c = '\r'

/-- `String.prototype.trim` of JS (`options.code.trim()`). -/
def strTrim (s : String) : String :=
  String.mk (((s.toList.dropWhile isWS).reverse.dropWhile isWS).reverse)

/-- Lexicographic comparison on code points, modelling the default JS string
sort order. -/
def charListLe : List Char → List Char → Bool
  | [], _ => true
  | _ :: _, [] => false
  | a :: as, b :: bs =>
    if a.toNat < b.toNat then true
    else if b.toNat < a.toNat then false
    else charListLe as bs

/-- String comparison used for sorting dependency lists. -/
def strLe (a b : String) : Bool := charListLe a.toList b.toList

/-- Association-list lookup, modelling JS `Map.get`. -/
def alookup {α : Type} (l : List (String × α)) (k : String) : Option α :=
  (l.find? (fun p => p.1 == k)).map (·.2)

/-- Association-list update, modelling JS `Map.set` (replace in place or append). -/
def aset {α : Type} (l : List (String × α)) (k : String) (v : α) : List (String × α) :=
  if (l.find? (fun p => p.1 == k)).isSome then
    l.map (fun p => if p.1 == k then (k, v) else p)
  else
    l ++ [(k, v)]

/-- Association-list delete, modelling JS `Map.delete`. -/
def adel {α : Type} (l : List (String × α)) (k : String) : List (String × α) :=
  l.filter (fun p => ¬(p.1 == k))

/-- Path join, modelling `path.join(a, b)` for the clean paths the engine uses. -/
def joinPath (a b : String) : String := a ++ "/" ++ b

/-- Directory name of a path, modelling `path.dirname`. -/
def parentDir (p : String) : String :=
  let parts := splitPath p
  if parts.length ≤ 1 then "." else String.intercalate "/" parts.dropLast

/-- Proper ancestor directories of a path (deepest last); used to model the
directories that `fs.mkdirSync(..., recursive)` and file creation imply. -/
def ancestorsOf (p : String) : List String :=
  let parts := splitPath p
  let lo : Nat := if parts.head? = some "" then 2 else 1
  (List.range parts.length).filterMap (fun i =>
    if lo ≤ i ∧ i < parts.length then some (String.intercalate "/" (parts.take i)) else none)

/-- Whether path `p` lies strictly inside directory `dir`. -/
def isUnder (dir p : String) : Bool := strIsPrefixOf (dir ++ "/") p

/-- JS `a || b` for strings: the empty string is falsy. -/
def jsOrStr (a b : String) : String := if a = "" then b else a

/-- JS `info.ExitCode || 1` where ExitCode is `number | null`: both null and 0
are falsy and give 1; any other number passes through. -/
def jsOrExitCode (e : Option Int) : Int :=
  match e with
  | none => 1
  | some v => if v = 0 then 1 else v

/-- JS `info.ExitCode ?? d`: only null gives the default. -/
def jsCoalesce (e : Option Int) (d : Int) : Int := e.getD d

/-- Add elements to a JS `Set` kept as an insertion-ordered duplicate-free list. -/
def setAddAll (s : List String) (xs : List String) : List String :=
  xs.foldl (fun acc x => if acc.contains x then acc else acc ++ [x]) s

/-- Insert into a sorted list of strings. -/
def insertSorted (x : String) : List String → List String
  | [] => [x]
  | y :: ys => if strLe x y then x :: y :: ys else y :: insertSorted x ys

/-- Sorting a string list, modelling JS `Array.sort()` (lexicographic). -/
def sortStrings (l : List String) : List String := l.foldr insertSorted []

/-! ## Base64 (model of node `Buffer.from(s, 'base64')` / `buf.toString('base64')`) -/

/-- The base64 alphabet in order. -/
def b64Chars : List Char :=
  "ABCDEFGHIJKLMNOPQRSTUVWXYZabcdefghijklmnopqrstuvwxyz0123456789+/".toList

/-- Index of a character in a list, if present. -/
def idxOf? (c : Char) : List Char → Option Nat
  | [] => none
  | a :: as => if a = c then some 0 else (idxOf? c as).map (· + 1)

/-- Character encoding a 6-bit value. -/
def charOf (n : Nat) : Char := b64Chars.getD n 'A'

/-- Decode a base64 character to its 6-bit value; `none` for characters outside
the alphabet (node's lenient decoder skips those, including padding). -/
def valOf? (c : Char) : Option Nat := idxOf? c b64Chars

/-- Encode bytes to base64 characters with `=` padding, as node does. -/
def encodeB64 : List Nat → List Char
  | [] => []
  | [b1] => [charOf (b1 / 4), charOf (b1 % 4 * 16), '=', '=']
  | [b1, b2] => [charOf (b1 / 4), charOf (b1 % 4 * 16 + b2 / 16), charOf (b2 % 16 * 4), '=']
  | b1 :: b2 :: b3 :: rest =>
      charOf (b1 / 4) :: charOf (b1 % 4 * 16 + b2 / 16) ::
      charOf (b2 % 16 * 4 + b3 / 64) :: charOf (b3 % 64) :: encodeB64 rest

/-- Reassemble bytes from a stream of 6-bit values; a trailing single value is
dropped, as node's decoder does. -/
def decodeVals : List Nat → List Nat
  | s1 :: s2 :: s3 :: s4 :: rest =>
      (s1 * 4 + s2 / 16) :: (s2 % 16 * 16 + s3 / 4) :: (s3 % 4 * 64 + s4) :: decodeVals rest
  | [s1, s2, s3] => [s1 * 4 + s2 / 16, s2 % 16 * 16 + s3 / 4]
  | [s1, s2] => [s1 * 4 + s2 / 16]
  | _ => []

/-- Base64 decode of a string: skip non-alphabet characters, then group. -/
def decodeB64 (s : String) : List Nat := decodeVals (s.toList.filterMap valOf?)

/-- Base64 encode of bytes as a string. -/
def encodeB64Str (bs : List Nat) : String := String.mk (encodeB64 bs)

/-! ## Data model (types.ts) -/

/-- Mount kinds, from `MountOptions.type` in types.ts. -/
inductive MountType
  | file | directory | zip
deriving DecidableEq, Repr

/-- A caller-supplied container mount. -/
structure ContainerMount where
  type : MountType
  source : String
  target : String
deriving DecidableEq, Repr

/-- Container configuration; environment variables and resource-cap strings are
carried but no claim observes them, so they are not interpreted further. -/
structure ContainerConfig where
  image : String
  mounts : List ContainerMount := []
  name : Option String := none
deriving DecidableEq, Repr

/-- The three placement strategies. -/
inductive ContainerStrategy
  | PER_EXECUTION | POOL | PER_SESSION
deriving DecidableEq, Repr

/-- Session configuration. -/
structure SessionConfig where
  strategy : ContainerStrategy
  containerConfig : ContainerConfig
  sessionId : Option String := none
  enforceNewSession : Bool := false
deriving DecidableEq, Repr

/-- Workspace-sharing flag of ExecutionOptions. -/
inductive WorkspaceSharing
  | isolated | shared
deriving DecidableEq, Repr

/-- Run-app record of ExecutionOptions. -/
structure RunAppOptions where
  entryFile : String
  cwd : String
deriving DecidableEq, Repr

/-- Execution options. Stream sinks are omitted: they receive copies of the
captured streams and no claim observes them; cpu/memory limit strings are
carried but their docker-update effect is not modelled (no claim observes it). -/
structure ExecutionOptions where
  language : String
  code : String := ""
  dependencies : List String := []
  runApp : Option RunAppOptions := none
  workspaceSharing : Option WorkspaceSharing := none
  cpuLimit : Option String := none
  memoryLimit : Option String := none
deriving DecidableEq, Repr

/-- Per-container metadata tracked by the session manager (ContainerMeta in
execution-engine.ts). Date fields become Nat milliseconds. -/
structure ContainerMeta where
  sessionId : String
  depsInstalled : Bool
  depsChecksum : Option String
  baselineFiles : List String
  workspaceDir : String
  generatedFiles : List String
  sessionGeneratedFiles : List String
  isRunning : Bool
  createdAt : Nat
  lastExecutedAt : Option Nat
  containerId : String
  imageName : String
  containerName : String
deriving DecidableEq, Repr

/-- The result returned by executeCode. -/
structure ExecutionResult where
  stdout : String
  stderr : String
  dependencyStdout : String
  dependencyStderr : String
  exitCode : Int
  executionTime : Nat
  workspaceDir : String
  generatedFiles : List String
  sessionGeneratedFiles : List String
deriving DecidableEq, Repr

/-! ## Language registry (languages.ts, the variant with installers) -/

/-- A language plugin. `prepareFiles` returns the relative file names (with
byte contents) the plugin writes into the workspace directory; the installer
itself runs inside the container, so here only its presence is recorded — its
observable outputs (stdout, stderr, exitCode, files created) are supplied by
the run oracle. -/
structure LanguageConfig where
  language : String
  defaultImage : String
  codeFilename : String
  prepareFiles : ExecutionOptions → List (String × List Nat)
  buildInlineCommand : Bool → List String
  buildRunAppCommand : String → Bool → List String
  hasInstaller : Bool

/-- Manifest files written by jsTsPrepare. Only the file names matter to any
claim (baselines and generated-file sets are path sets); the JSON text of
package.json / tsconfig.json is abbreviated to its UTF-8 name tag. -/
def jsTsPrepare (options : ExecutionOptions) (filename : String) : List (String × List Nat) :=
  [(filename, strToBytes options.code)] ++
  (if options.language = "typescript" then [("tsconfig.json", strToBytes "tsconfig")] else []) ++
  [("package.json", strToBytes "package")]

/-- The four built-in plugins of languages.ts. In that file `javascript` has no
`installDependencies` routine while `typescript`, `python` and `shell` do. -/
def defaultLanguageConfigs : List LanguageConfig :=
  [ { language := "javascript"
      defaultImage := "node:18-alpine"
      codeFilename := "code.js"
      prepareFiles := fun o => jsTsPrepare o "code.js"
      buildInlineCommand := fun depsInstalled =>
        ["sh", "-c", (if depsInstalled then "" else "yarn install && ") ++ "node code.js"]
      buildRunAppCommand := fun entry depsInstalled =>
        ["sh", "-c", (if depsInstalled then "" else "yarn install && ") ++ "node " ++ entry]
      hasInstaller := false }
  , { language := "typescript"
      defaultImage := "node:18-alpine"
      codeFilename := "code.ts"
      prepareFiles := fun o => jsTsPrepare o "code.ts"
      buildInlineCommand := fun _ => ["sh", "-c", "npx ts-node code.ts"]
      buildRunAppCommand := fun entry _ => ["sh", "-c", "npx ts-node " ++ entry]
      hasInstaller := true }
  , { language := "python"
      defaultImage := "python:3.9-slim"
      codeFilename := "code.py"
      prepareFiles := fun o =>
        [("code.py", strToBytes o.code)] ++
        (if o.dependencies.length ≠ 0 then
          [("requirements.txt", strToBytes (String.intercalate "\n" o.dependencies))]
        else [])
      buildInlineCommand := fun _ =>
        ["sh", "-c", "py=$(command -v python3 || command -v python) && $py -u code.py"]
      buildRunAppCommand := fun entry _ =>
        ["sh", "-c", "py=$(command -v python3 || command -v python) && $py -u " ++ entry]
      hasInstaller := true }
  , { language := "shell"
      defaultImage := "alpine:latest"
      codeFilename := "code.sh"
      prepareFiles := fun o => [("code.sh", strToBytes o.code)]
      buildInlineCommand := fun _ => ["sh", "-c", "./code.sh"]
      buildRunAppCommand := fun entry _ => ["sh", "-c", "chmod +x " ++ entry ++ " && ./" ++ entry]
      hasInstaller := true }
  ]

/-- `LanguageRegistry.get`. The registry is passed explicitly (dynamic
registration appends to the list). -/
def registryGet (langs : List LanguageConfig) (language : String) : Option LanguageConfig :=
  langs.find? (fun c => c.language == language)

/-! ## Host filesystem model -/

/-- The host filesystem: file paths with byte contents, plus the set of
directories that exist. Writing a file records its ancestor directories, since
on a real filesystem a file cannot exist without them. -/
structure HostFS where
  files : List (String × List Nat)
  dirs : List String
deriving DecidableEq, Repr

/-- Append paths not already present. -/
def addDirs (dirs : List String) (ds : List String) : List String :=
  ds.foldl (fun acc d => if acc.contains d then acc else acc ++ [d]) dirs

/-- `fs.mkdirSync(p, recursive := true)`. -/
def mkdirp (fs : HostFS) (p : String) : HostFS :=
  { fs with dirs := addDirs fs.dirs (ancestorsOf p ++ [p]) }

/-- `fs.writeFileSync(p, bytes)` (with the implied ancestor directories). -/
def writeFile (fs : HostFS) (p : String) (bytes : List Nat) : HostFS :=
  { files := aset fs.files p bytes, dirs := addDirs fs.dirs (ancestorsOf p) }

/-- `fs.rmSync(p, force := true)` on a single file. -/
def rmFile (fs : HostFS) (p : String) : HostFS :=
  { fs with files := fs.files.filter (fun f => ¬(f.1 == p)) }

/-- `fs.rmSync(d, recursive := true, force := true)` on a directory. -/
def rmTree (fs : HostFS) (d : String) : HostFS :=
  { files := fs.files.filter (fun f => ¬(f.1 == d ∨ isUnder d f.1)),
    dirs := fs.dirs.filter (fun e => ¬(e == d ∨ isUnder d e)) }

/-- Whether directory `d` has any entry (file or subdirectory), i.e. whether
`fs.readdirSync(d)` is nonempty. -/
def hasChild (fs : HostFS) (d : String) : Bool :=
  fs.files.any (fun f => isUnder d f.1) || fs.dirs.any (fun e => ¬(e == d) && isUnder d e)

/-- `if (fs.existsSync(d) && fs.readdirSync(d).length === 0) fs.rmdirSync(d)`,
with the surrounding try/catch swallowing failures. -/
def rmdirIfEmpty (fs : HostFS) (d : String) : HostFS :=
  if hasChild fs d then fs else { fs with dirs := fs.dirs.filter (fun e => ¬(e == d)) }

/-- `listAllFiles(dir)`: the recursive listing of file paths under `dir`.
The readdir error on a missing directory is not modelled; every call site in
the engine creates the directory first. -/
def listAllFiles (fs : HostFS) (dir : String) : List String :=
  (fs.files.map (·.1)).filter (fun p => isUnder dir p)

/-! ## Containers, pool and world state -/

/-- A docker container as the model tracks it: identity, image, run state, the
host directory bound at /workspace (if any), and the relative names of the
files currently in its /workspace. -/
structure ContainerRec where
  id : String
  name : String
  image : String
  running : Bool
  wsBind : Option String
  wsFiles : List String
deriving DecidableEq, Repr

/-- A pool entry (`PooledContainer` in container-manager.ts). -/
structure PoolEntry where
  cid : String
  inUse : Bool
  lastUsed : Nat
deriving DecidableEq, Repr

/-- The SessionManager's five maps (execution-engine.ts). History and idle
lists hold container ids; the shared meta objects they alias in JS are looked
up in `containerMeta`. -/
structure SessionMgr where
  sessionConfigs : List (String × SessionConfig)
  sessionContainers : List (String × String)
  containerMeta : List (String × ContainerMeta)
  sessionContainerHistory : List (String × List String)
  idleContainers : List (String × List String)
deriving DecidableEq, Repr

/-- The whole mutable state: the docker daemon's containers, the host
filesystem, the ContainerManager's tracking map and pool, and the
SessionManager. -/
structure World where
  docker : List (String × ContainerRec)
  fs : HostFS
  cmTracked : List String
  pool : List PoolEntry
  sm : SessionMgr
deriving DecidableEq, Repr

/-- The empty initial state. -/
def World.init : World :=
  { docker := [], fs := { files := [], dirs := [] }, cmTracked := [], pool := [],
    sm := { sessionConfigs := [], sessionContainers := [], containerMeta := [],
            sessionContainerHistory := [], idleContainers := [] } }

/-- Modelled from the spec: the temp-path helper (constants.ts is not among
the provided sources). It maps a container name to a deterministic host
directory under a single base temp root. -/
def BASE_TMP_DIR : String := "/tmp/interpreter-tools"

/-- Modelled from the spec: `tempPathForContainer` of constants.ts. -/
def tempPathForContainer (containerName : String) : String :=
  joinPath BASE_TMP_DIR containerName

def dockerLookup (w : World) (cid : String) : Option ContainerRec :=
  alookup w.docker cid

def dockerSet (w : World) (c : ContainerRec) : World :=
  { w with docker := aset w.docker c.id c }

/-! ### SessionManager operations -/

def getSessionConfig (w : World) (sessionId : String) : Option SessionConfig :=
  alookup w.sm.sessionConfigs sessionId

def getContainer (w : World) (sessionId : String) : Option String :=
  alookup w.sm.sessionContainers sessionId

def getContainerMeta (w : World) (containerId : String) : Option ContainerMeta :=
  alookup w.sm.containerMeta containerId

def setSessionConfig (w : World) (sessionId : String) (config : SessionConfig) : World :=
  { w with sm := { w.sm with sessionConfigs := aset w.sm.sessionConfigs sessionId config } }

def setContainer (w : World) (sessionId : String) (container : Option String) : World :=
  match container with
  | some cid => { w with sm := { w.sm with sessionContainers := aset w.sm.sessionContainers sessionId cid } }
  | none => { w with sm := { w.sm with sessionContainers := adel w.sm.sessionContainers sessionId } }

/-- `setContainerMeta`: store the meta and append the container to the
session's history if it is new there. -/
def setContainerMeta (w : World) (containerId : String) (meta : ContainerMeta) : World :=
  let history := (alookup w.sm.sessionContainerHistory meta.sessionId).getD []
  let history := if history.contains meta.containerId then history else history ++ [meta.containerId]
  { w with sm := { w.sm with
      containerMeta := aset w.sm.containerMeta containerId meta,
      sessionContainerHistory := aset w.sm.sessionContainerHistory meta.sessionId history } }

/-- In-place mutation of the (shared) meta object of a container, as JS
`meta.field = v` does; a no-op when the container has no meta. -/
def updateMeta (w : World) (containerId : String) (f : ContainerMeta → ContainerMeta) : World :=
  match alookup w.sm.containerMeta containerId with
  | none => w
  | some m => { w with sm := { w.sm with containerMeta := aset w.sm.containerMeta containerId (f m) } }

def hasSession (w : World) (sessionId : String) : Bool :=
  (alookup w.sm.sessionConfigs sessionId).isSome

def deleteSession (w : World) (sessionId : String) : World :=
  let w :=
    match alookup w.sm.sessionContainers sessionId with
    | some cid =>
      { w with sm := { w.sm with
          containerMeta := adel w.sm.containerMeta cid,
          sessionContainers := adel w.sm.sessionContainers sessionId } }
    | none => w
  { w with sm := { w.sm with
      sessionConfigs := adel w.sm.sessionConfigs sessionId,
      sessionContainerHistory := adel w.sm.sessionContainerHistory sessionId } }

/-- `updateContainerState`: toggle isRunning; stamp lastExecutedAt when a run
begins. -/
def updateContainerState (w : World) (containerId : String) (isRunning : Bool) (now : Nat) : World :=
  updateMeta w containerId (fun m =>
    { m with isRunning := isRunning,
             lastExecutedAt := if isRunning then some now else m.lastExecutedAt })

def addIdleContainer (w : World) (sessionId : String) (cid : String) : World :=
  let l := (alookup w.sm.idleContainers sessionId).getD []
  { w with sm := { w.sm with idleContainers := aset w.sm.idleContainers sessionId (l ++ [cid]) } }

def getIdleContainer (w : World) (sessionId : String) (image : String) : Option String :=
  ((alookup w.sm.idleContainers sessionId).getD []).find? (fun cid =>
    match getContainerMeta w cid with
    | some m => m.imageName == image
    | none => false)

def removeIdleContainer (w : World) (sessionId : String) (cid : String) : World :=
  let l := (alookup w.sm.idleContainers sessionId).getD []
  { w with sm := { w.sm with idleContainers := aset w.sm.idleContainers sessionId (l.filter (fun c => ¬(c == cid))) } }

def getIdleContainers (w : World) (sessionId : String) : List String :=
  (alookup w.sm.idleContainers sessionId).getD []

def clearIdleContainers (w : World) (sessionId : String) : World :=
  { w with sm := { w.sm with idleContainers := adel w.sm.idleContainers sessionId } }

/-! ### Container-side workspace effects -/

/-- Files written into a container's /workspace (by the here-doc write exec,
the installer, or the user code): they appear in the container, and on the
host under the bound directory when /workspace is a bind mount. -/
def containerWsWrite (w : World) (cid : String) (writes : List (String × List Nat)) : World :=
  match dockerLookup w cid with
  | none => w
  | some c =>
    let w := dockerSet w { c with wsFiles := setAddAll c.wsFiles (writes.map (·.1)) }
    match c.wsBind with
    | some d => { w with fs := writes.foldl (fun fs wr => writeFile fs (joinPath d wr.1) wr.2) w.fs }
    | none => w

/-- Effect of a successful `rm -rf /workspace/*` exec. -/
def containerWsClear (w : World) (cid : String) : World :=
  match dockerLookup w cid with
  | none => w
  | some c =>
    let w := dockerSet w { c with wsFiles := [] }
    match c.wsBind with
    | some d =>
      { w with fs := { files := w.fs.files.filter (fun f => ¬isUnder d f.1),
                       dirs := w.fs.dirs.filter (fun e => ¬isUnder d e) } }
    | none => w

/-! ### ContainerManager (container-manager.ts) -/

/-- Oracle for one container creation: whether the image pull succeeds, the id
docker assigns, and the uuid used when the caller supplies no name. -/
structure CreateOracle where
  pullOk : Bool := true
  freshId : String := "cid-fresh"
  freshName : String := "uuid-fresh"
deriving DecidableEq, Repr

def poolConfigMaxSize : Nat := 5
def poolConfigMinSize : Nat := 2
def poolConfigIdleTimeout : Nat := 300000

/-- `createContainer`: pull the image (oracle), make the container's host
workspace directory, create and start the container, and track it. The
/workspace bind is whatever mount targets /workspace in the passed config. -/
def createContainer (oracle : CreateOracle) (w : World) (config : ContainerConfig) :
    (Except String String) × World :=
  if ¬oracle.pullOk then (.error ("Error pulling image " ++ config.image), w)
  else
    let containerName := config.name.getD ("it_" ++ oracle.freshName)
    let w := { w with fs := mkdirp w.fs (tempPathForContainer containerName) }
    let wsBind := (config.mounts.find? (fun m => m.target == "/workspace")).map (·.source)
    let cont : ContainerRec :=
      { id := oracle.freshId, name := containerName, image := config.image,
        running := true, wsBind := wsBind, wsFiles := [] }
    let w := { w with docker := aset w.docker cont.id cont, cmTracked := w.cmTracked ++ [cont.id] }
    (.ok cont.id, w)

/-- `imageMatches`: compare repository+tag ignoring any registry path. -/
def imageMatches (expected actual : String) : Bool :=
  let strip := fun (img : String) => (splitPath img).getLastD img
  strip actual == strip expected

/-- `removeContainerAndDir` exactly as declared in container-manager.ts: it
takes a single container argument — there is no deleteDir parameter — and
unconditionally force-removes the container and recursively deletes the host
directory derived from the container name, then drops it from the tracking
map and the pool. (The execution engine passes a second `deleteDir` argument
at several call sites; JS silently discards it.) -/
def removeContainerAndDir (w : World) (cid : String) : World :=
  match dockerLookup w cid with
  | none => w
  | some c =>
    let w := { w with docker := adel w.docker cid }
    let w := { w with fs := rmTree w.fs (tempPathForContainer c.name) }
    { w with cmTracked := w.cmTracked.filter (fun i => ¬(i == cid)),
             pool := w.pool.filter (fun e => ¬(e.cid == cid)) }

/-- Oracle for one pool interaction: the clock, the exit code the cleanup
exec reports (none models a missing ExitCode), and the creation oracle used
if the pool creates a new container. -/
structure PoolEnv where
  now : Nat
  cleanupExit : Option Int := some 0
  create : Option CreateOracle := none
deriving DecidableEq, Repr

/-- `getContainerFromPool`: find a free image-matched entry, mark it inUse,
ensure it runs, clean its /workspace and check the exec's exit code; on
cleanup failure remove it and return none. Otherwise, create a new pooled
container when below maxSize. -/
def getContainerFromPool (penv : PoolEnv) (w : World) (expectedImage : Option String) :
    Option String × World :=
  let avail? := w.pool.find? (fun e =>
    ¬e.inUse && (match expectedImage, dockerLookup w e.cid with
                 | some img, some c => imageMatches img c.image
                 | some _, none => false
                 | none, _ => true))
  match avail? with
  | some e =>
    let w := { w with pool := w.pool.map (fun x =>
        if x.cid == e.cid then { x with inUse := true, lastUsed := penv.now } else x) }
    let w := match dockerLookup w e.cid with
             | some c => dockerSet w { c with running := true }
             | none => w
    if jsCoalesce penv.cleanupExit 1 = 0 then
      (some e.cid, containerWsClear w e.cid)
    else
      let w := removeContainerAndDir w e.cid
      (none, { w with pool := w.pool.filter (fun x => ¬(x.cid == e.cid)) })
  | none =>
    if w.pool.length < poolConfigMaxSize then
      match penv.create with
      | some oracle =>
        match createContainer oracle w { image := expectedImage.getD "node:18-alpine", mounts := [] } with
        | (.ok cid, w) =>
          (some cid, { w with pool := w.pool ++ [{ cid := cid, inUse := true, lastUsed := penv.now }] })
        | (.error _, w) => (none, w)
      | none => (none, w)
    else (none, w)

/-- The top-up half of `cleanupPool`: create containers of the base image
until the pool reaches minSize; a creation failure breaks the loop. The
oracle supply bounds the iterations. -/
def topUpPool : List CreateOracle → Nat → Option String → World → World
  | [], _, _, w => w
  | oracle :: rest, now, baseImage, w =>
    if w.pool.length < poolConfigMinSize then
      match createContainer oracle w { image := baseImage.getD "node:18-alpine", mounts := [] } with
      | (.ok cid, w) =>
        topUpPool rest now baseImage { w with pool := w.pool ++ [{ cid := cid, inUse := false, lastUsed := now }] }
      | (.error _, w) => w
    else w

/-- `cleanupPool`: evict free entries idle longer than idleTimeout, then top
up to minSize. -/
def cleanupPool (supply : List CreateOracle) (now : Nat) (baseImage : Option String) (w : World) : World :=
  let toRemove := w.pool.filter (fun e => ¬e.inUse && now - e.lastUsed > poolConfigIdleTimeout)
  let w := toRemove.foldl (fun w e => removeContainerAndDir w e.cid) w
  topUpPool supply now baseImage w

/-- `returnContainerToPool`: a container that is not a pool member is just
force-removed. A member gets its /workspace cleaned; if the cleanup exec
exits 0 it is marked free and pool maintenance runs, otherwise it is removed
from the pool and destroyed. -/
def returnContainerToPool (penv : PoolEnv) (supply : List CreateOracle) (w : World) (cid : String) : World :=
  match w.pool.find? (fun e => e.cid == cid) with
  | none => { w with docker := adel w.docker cid }
  | some _ =>
    if jsCoalesce penv.cleanupExit 1 = 0 then
      let w := containerWsClear w cid
      let w := { w with pool := w.pool.map (fun x =>
          if x.cid == cid then { x with inUse := false, lastUsed := penv.now } else x) }
      let baseImage := (dockerLookup w cid).map (·.image)
      cleanupPool supply penv.now baseImage w
    else
      let w := removeContainerAndDir w cid
      { w with pool := w.pool.filter (fun x => ¬(x.cid == cid)) }

/-! ### ExecutionEngine (execution-engine.ts) -/

/-- `calculateDepsChecksum`: empty string when there are no dependencies,
otherwise the hash of the sorted list joined with a pipe. The hash models
node crypto's sha256 hex digest and is passed in as an opaque function. -/
def calculateDepsChecksum (hash : String → String) (dependencies : List String) : String :=
  if dependencies.length = 0 then ""
  else hash (String.intercalate "|" (sortStrings dependencies))

/-- `getContainerImage`: the plugin's default image; unknown languages throw. -/
def getContainerImage (langs : List LanguageConfig) (language : String) : Except String String :=
  match registryGet langs language with
  | none => .error ("Unsupported language: " ++ language)
  | some cfg => .ok cfg.defaultImage

/-- `prepareCodeFile`: make the workspace directory and let the plugin write
its files into it. -/
def prepareCodeFile (langs : List LanguageConfig) (w : World) (options : ExecutionOptions)
    (tempDir : String) : (Except String Unit) × World :=
  let w := { w with fs := mkdirp w.fs tempDir }
  match registryGet langs options.language with
  | none => (.error ("Unsupported language: " ++ options.language), w)
  | some cfg =>
    (.ok (), { w with fs := ((cfg.prepareFiles options).foldl
        (fun fs wr => writeFile fs (joinPath tempDir wr.1) wr.2) w.fs) })

/-- `getWorkspaceDir`: the meta's workspaceDir; without a meta the source
falls back to `(container as any).name`, which dockerode leaves undefined, so
the fallback is the temp path of the empty name. -/
def getWorkspaceDir (w : World) (cid : String) : String :=
  match getContainerMeta w cid with
  | some m => m.workspaceDir
  | none => tempPathForContainer ""

/-- `listWorkspaceFiles`. -/
def listWorkspaceFiles (w : World) (sessionId : String) (onlyGenerated : Bool) :
    Except String (List String) :=
  match getContainer w sessionId with
  | none => .error "Session not found"
  | some cid =>
    let workspaceDir := getWorkspaceDir w cid
    let currentFiles := listAllFiles w.fs workspaceDir
    if ¬onlyGenerated then .ok currentFiles
    else
      let baseline := ((getContainerMeta w cid).map (·.baselineFiles)).getD []
      .ok (currentFiles.filter (fun p => strIsPrefixOf workspaceDir p && ¬baseline.contains p))

/-- Oracle for one executeInContainer run: the clock and the container
runtime's answers — the write exec's exit code, the installer's streams, exit
code and the files it creates in /workspace, the user exec's streams, exit
code and the files it creates, plus any files the user code writes through
mounts outside the workspace bind. -/
structure RunEnv where
  now : Nat
  elapsedMs : Nat := 0
  writeExecExit : Option Int := some 0
  installerStdout : String := ""
  installerStderr : String := ""
  installerExit : Int := 0
  installWrites : List (String × List Nat) := []
  userStdout : String := ""
  userStderr : String := ""
  userExecExit : Option Int := some 0
  runWrites : List (String × List Nat) := []
  extraHostWrites : List (String × List Nat) := []
deriving DecidableEq, Repr

/-- The observable outcome of a run: the ExecutionResult handed to the
caller, plus — for the theorems — whether the plugin's install routine was
invoked, which argv the user exec received, and in which working directory. -/
structure RunOutcome where
  result : ExecutionResult
  installerInvoked : Bool
  commandRun : List String
  workingDir : String
deriving DecidableEq, Repr

/-- `installDependencies` (the centralised dependency phase): fast-path when
the checksum cache hits; otherwise run the plugin's installer if it has one
(its workspace writes land whether or not it succeeds), treat a missing
installer as success, and on success re-capture the baseline from the
workspace so installer artifacts are not reported as generated. -/
def installDependencies (env : RunEnv) (w : World) (cid : String) (langCfg : LanguageConfig)
    (depsAlreadyInstalled : Bool) (codePath : String) : (Bool × String × String) × World :=
  if depsAlreadyInstalled then ((true, "", ""), w)
  else
    let step :=
      if langCfg.hasInstaller then
        (containerWsWrite w cid env.installWrites,
         env.installerStdout, env.installerStderr, env.installerExit == 0)
      else (w, "", "", true)
    match step with
    | (w, out, err, ok) =>
      let w :=
        if ok then
          updateMeta w cid (fun m =>
            { m with baselineFiles := ((listAllFiles w.fs codePath).filter
                (fun p => strIsPrefixOf codePath p)) })
        else w
      ((ok, out, err), w)

/-- `executeInContainer`: resource overrides (no modelled effect), checksum
computation, baseline capture, the runApp/inline split with mount validation
or the here-doc code write, the dependency phase, the user exec with stream
capture, and the end-of-stream accounting (checksum update, generated-file
diff, meta updates, result assembly with `info.ExitCode || 1`). -/
def executeInContainer (hash : String → String) (langs : List LanguageConfig) (env : RunEnv)
    (w : World) (cid : String) (options : ExecutionOptions) (config : SessionConfig)
    (codePath : String) : (Except String RunOutcome) × World :=
  let w := updateContainerState w cid true env.now
  let meta0 := getContainerMeta w cid
  let newDepsChecksum := calculateDepsChecksum hash options.dependencies
  let depsAlreadyInstalled :=
    match meta0 with
    | some m => m.depsInstalled && m.depsChecksum == some newDepsChecksum
    | none => false
  let w := updateMeta w cid (fun m =>
    { m with workspaceDir := codePath,
             baselineFiles := (listAllFiles w.fs codePath).filter
               (fun p => strIsPrefixOf codePath p) })
  let afterPrep : (Except String (String × LanguageConfig)) × World :=
    match options.runApp with
    | some ra =>
      match config.containerConfig.mounts.find?
          (fun m => (m.type == MountType.directory) && m.target == ra.cwd) with
      | none => (.error ("Working directory " ++ ra.cwd ++ " is not mounted in the container"), w)
      | some _ =>
        match registryGet langs options.language with
        | none => (.error ("Unsupported language: " ++ options.language), w)
        | some cfg => (.ok (ra.cwd, cfg), w)
    | none =>
      match registryGet langs options.language with
      | none => (.error ("Unsupported language: " ++ options.language), w)
      | some cfg =>
        if jsCoalesce env.writeExecExit 1 = 0 then
          (.ok ("/workspace", cfg), containerWsWrite w cid [(cfg.codeFilename, strToBytes (strTrim options.code))])
        else (.error "Failed to write code to workspace", w)
  match afterPrep with
  | (.error e, w) => (.error e, updateContainerState w cid false env.now)
  | (.ok (workingDir, langCfg), w) =>
    match installDependencies env w cid langCfg depsAlreadyInstalled codePath with
    | ((depsOk, depOut, depErr), w) =>
      let installerInvoked := ¬depsAlreadyInstalled && langCfg.hasInstaller
      let command :=
        match options.runApp with
        | some ra => langCfg.buildRunAppCommand ra.entryFile depsOk
        | none => langCfg.buildInlineCommand depsOk
      let w := containerWsWrite w cid env.runWrites
      let w := { w with fs := env.extraHostWrites.foldl (fun fs wr => writeFile fs wr.1 wr.2) w.fs }
      let w :=
        if ¬depsAlreadyInstalled && depsOk then
          updateMeta w cid (fun m =>
            { m with depsInstalled := true, depsChecksum := some newDepsChecksum })
        else w
      let sid := ((getContainerMeta w cid).map (·.sessionId)).getD ""
      let genStep : (Except String (List String)) × World :=
        if sid ≠ "" then
          match listWorkspaceFiles w sid true with
          | .error e => (.error e, w)
          | .ok generatedFiles =>
            (.ok generatedFiles,
             updateMeta w cid (fun m =>
               { m with generatedFiles := generatedFiles,
                        sessionGeneratedFiles := setAddAll m.sessionGeneratedFiles generatedFiles }))
        else (.ok [], w)
      match genStep with
      | (.error e, w) => (.error e, updateContainerState w cid false env.now)
      | (.ok generatedFiles, w) =>
        let sessionGen := ((getContainerMeta w cid).map (·.sessionGeneratedFiles)).getD []
        let result : ExecutionResult :=
          { stdout := env.userStdout, stderr := env.userStderr,
            dependencyStdout := depOut, dependencyStderr := depErr,
            exitCode := jsOrExitCode env.userExecExit,
            executionTime := env.elapsedMs, workspaceDir := codePath,
            generatedFiles := generatedFiles,
            sessionGeneratedFiles := if (getContainerMeta w cid).isSome then sessionGen else [] }
        (.ok { result := result, installerInvoked := installerInvoked,
               commandRun := command, workingDir := workingDir },
         updateContainerState w cid false env.now)

/-- `createNewContainer`: allocate a fresh prefixed name, create the container
with the session's mounts plus the workspace bind, and build the fresh meta.
Note the source quirks kept here: the meta's sessionId comes from
`config.sessionId!` (empty when the caller never set one) and its imageName
from `config.containerConfig.image`, not from the expected image actually
used for creation. -/
def createNewContainer (oracle : CreateOracle) (nameUuid : String) (now : Nat) (w : World)
    (config : SessionConfig) (expectedImage : String) (codePath : String) :
    (Except String (String × ContainerMeta)) × World :=
  let containerName := "it_" ++ nameUuid
  match createContainer oracle w
      { config.containerConfig with
        name := some containerName, image := expectedImage,
        mounts := config.containerConfig.mounts ++
          [{ type := MountType.directory, source := codePath, target := "/workspace" }] } with
  | (.error e, w) => (.error e, w)
  | (.ok cid, w) =>
    let meta : ContainerMeta :=
      { sessionId := config.sessionId.getD "", depsInstalled := false, depsChecksum := none,
        baselineFiles := [], workspaceDir := codePath, generatedFiles := [],
        sessionGeneratedFiles := [], isRunning := false, createdAt := now,
        lastExecutedAt := none, containerId := cid,
        imageName := config.containerConfig.image, containerName := containerName }
    (.ok (cid, meta), w)

/-- `handleContainerImageMismatch`: on mismatch remove the container (the
engine passes `!useSharedWorkspace` as a deleteDir argument, which the
manager's one-parameter `removeContainerAndDir` discards) and clear the
session's container reference. -/
def handleContainerImageMismatch (w : World) (cid : String) (expectedImage : String)
    (sessionId : String) : (Except String Bool) × World :=
  match dockerLookup w cid with
  | none => (.error "no such container", w)
  | some c =>
    if ¬(c.image == expectedImage) then
      let w := removeContainerAndDir w cid
      (.ok true, setContainer w sessionId none)
    else (.ok false, w)

/-- `prepareWorkspace`: when the container has a meta, write the plugin files
into the workspace and reset workspaceDir and baseline. -/
def prepareWorkspace (langs : List LanguageConfig) (w : World) (cid : String)
    (codePath : String) (options : ExecutionOptions) : (Except String Unit) × World :=
  match getContainerMeta w cid with
  | none => (.ok (), w)
  | some _ =>
    match prepareCodeFile langs w options codePath with
    | (.error e, w) => (.error e, w)
    | (.ok _, w) =>
      (.ok (), updateMeta w cid (fun m =>
        { m with workspaceDir := codePath,
                 baselineFiles := (listAllFiles w.fs codePath).filter
                   (fun p => strIsPrefixOf codePath p) }))

/-- The configuration error raised when a shared workspace is requested on a
strategy that does not support it (message text abbreviated). -/
def sharedGuardMsg : String :=
  "workspaceSharing shared is not supported with this ContainerStrategy. Use PER_SESSION for a persistent workspace."

/-- Whether the executeCode guard rejects the sharing/strategy combination. -/
def workspaceSharingRejected (options : ExecutionOptions) (strategy : ContainerStrategy) : Bool :=
  options.workspaceSharing == some WorkspaceSharing.shared &&
  (strategy == ContainerStrategy.POOL || strategy == ContainerStrategy.PER_EXECUTION)

/-- Oracle for one executeCode call: clock, the uuids drawn, the creation
oracle for an engine-created container, the pool oracle, and the run oracle. -/
structure ExecEnv where
  now : Nat
  uuidShared : String := "u-shared"
  uuidMain : String := "u-main"
  uuidCreate : String := "u-create"
  create : CreateOracle := {}
  pool : PoolEnv := { now := 0 }
  run : RunEnv
deriving DecidableEq, Repr

/-- The strategy dispatch of executeCode (the `switch` on config.strategy):
returns the codePath chosen so far (possibly still empty) and the container
serving this run. -/
def acquireContainer (eenv : ExecEnv) (langs : List LanguageConfig) (w : World)
    (sessionId : String) (options : ExecutionOptions) (config : SessionConfig)
    (expectedImage : String) (useShared : Bool) (sharedWorkspacePath : Option String) :
    (Except String (String × String)) × World :=
  match config.strategy with
  | ContainerStrategy.PER_EXECUTION =>
    let containerName := "it_" ++ eenv.uuidMain
    let codePath := tempPathForContainer containerName
    match prepareCodeFile langs w options codePath with
    | (.error e, w) => (.error e, w)
    | (.ok _, w) =>
      match createNewContainer eenv.create eenv.uuidCreate eenv.now w config expectedImage codePath with
      | (.error e, w) => (.error e, w)
      | (.ok (cid, meta), w) =>
        let w := setContainer w sessionId (some cid)
        let w := setContainerMeta w cid meta
        (.ok (codePath, cid), w)
  | ContainerStrategy.POOL =>
    let step1 : (Except String (Option String)) × World :=
      match getContainer w sessionId with
      | some cid =>
        match handleContainerImageMismatch w cid expectedImage sessionId with
        | (.error e, w) => (.error e, w)
        | (.ok true, w) => (.ok none, w)
        | (.ok false, w) => (.ok (some cid), w)
      | none => (.ok none, w)
    match step1 with
    | (.error e, w) => (.error e, w)
    | (.ok (some cid), w) => (.ok ("", cid), w)
    | (.ok none, w) =>
      match getContainerFromPool eenv.pool w (some expectedImage) with
      | (none, w) =>
        let containerName := "it_" ++ eenv.uuidMain
        let codePath := tempPathForContainer containerName
        match createNewContainer eenv.create eenv.uuidCreate eenv.now w config expectedImage codePath with
        | (.error e, w) => (.error e, w)
        | (.ok (cid, meta), w) =>
          let w := setContainerMeta w cid meta
          let w := setContainer w sessionId (some cid)
          (.ok (codePath, cid), w)
      | (some pcid, w) =>
        let w :=
          match getContainerMeta w pcid with
          | some _ => updateMeta w pcid (fun m => { m with sessionId := sessionId })
          | none =>
            setContainerMeta w pcid
              { sessionId := sessionId, depsInstalled := false, depsChecksum := none,
                baselineFiles := [],
                workspaceDir := (if useShared then sharedWorkspacePath.getD "" else getWorkspaceDir w pcid),
                generatedFiles := [], sessionGeneratedFiles := [], isRunning := false,
                createdAt := eenv.now, lastExecutedAt := none, containerId := pcid,
                imageName := expectedImage, containerName := pcid }
        let w := setContainer w sessionId (some pcid)
        (.ok ("", pcid), w)
  | ContainerStrategy.PER_SESSION =>
    let step1 : (Except String (Option String)) × World :=
      if useShared then
        match getContainer w sessionId with
        | some cid =>
          match dockerLookup w cid with
          | none => (.error "no such container", w)
          | some c =>
            if ¬(c.image == expectedImage) then
              let w := dockerSet w { c with running := false }
              let w := addIdleContainer w sessionId cid
              (.ok none, w)
            else (.ok (some cid), w)
        | none => (.ok none, w)
      else
        match getContainer w sessionId with
        | some cid =>
          match handleContainerImageMismatch w cid expectedImage sessionId with
          | (.error e, w) => (.error e, w)
          | (.ok true, w) => (.ok none, w)
          | (.ok false, w) => (.ok (some cid), w)
        | none => (.ok none, w)
    match step1 with
    | (.error e, w) => (.error e, w)
    | (.ok sc1, w) =>
      let step2 : Option String × World :=
        match sc1 with
        | some cid => (some cid, w)
        | none =>
          if useShared then
            match getIdleContainer w sessionId expectedImage with
            | some icid =>
              let w := match dockerLookup w icid with
                       | some c => dockerSet w { c with running := true }
                       | none => w
              let w := removeIdleContainer w sessionId icid
              let w := setContainer w sessionId (some icid)
              (some icid, w)
            | none => (none, w)
          else (none, w)
      match step2 with
      | (some cid, w) => (.ok ("", cid), w)
      | (none, w) =>
        let containerName := "it_" ++ eenv.uuidMain
        let codeDir := if useShared then sharedWorkspacePath.getD "" else tempPathForContainer containerName
        let w := if ¬useShared then { w with fs := mkdirp w.fs codeDir } else w
        match createNewContainer eenv.create eenv.uuidCreate eenv.now w config expectedImage codeDir with
        | (.error e, w) => (.error e, w)
        | (.ok (cid, _), w) =>
          let w := setContainer w sessionId (some cid)
          let w := setContainerMeta w cid
            { sessionId := sessionId, depsInstalled := false, depsChecksum := none,
              baselineFiles := [], workspaceDir := codeDir, generatedFiles := [],
              sessionGeneratedFiles := [], isRunning := false, createdAt := eenv.now,
              lastExecutedAt := none, containerId := cid, imageName := expectedImage,
              containerName := containerName }
          (.ok ("", cid), w)

/-- `executeCode`: validate the session and the sharing/strategy combination,
resolve the image (`getContainerImage(language) || containerConfig.image`),
resolve a shared workspace path when requested, dispatch on the strategy,
infer the codePath for reused containers, prepare the workspace for
PER_SESSION and POOL, run, and tear down PER_EXECUTION containers. -/
def executeCode (hash : String → String) (langs : List LanguageConfig) (eenv : ExecEnv)
    (w : World) (sessionId : String) (options : ExecutionOptions) :
    (Except String RunOutcome) × World :=
  match getSessionConfig w sessionId with
  | none => (.error "Invalid session ID", w)
  | some config =>
    if workspaceSharingRejected options config.strategy then (.error sharedGuardMsg, w)
    else
      match getContainerImage langs options.language with
      | .error e => (.error e, w)
      | .ok defaultImage =>
        let expectedImage := jsOrStr defaultImage config.containerConfig.image
        let useShared := options.workspaceSharing == some WorkspaceSharing.shared
        let sharedStep : Option String × World :=
          if useShared then
            match (getContainer w sessionId).bind (fun c => getContainerMeta w c) with
            | some m => (some m.workspaceDir, w)
            | none =>
              let p := tempPathForContainer ("it_" ++ eenv.uuidShared)
              (some p, { w with fs := mkdirp w.fs p })
          else (none, w)
        match sharedStep with
        | (sharedWorkspacePath, w) =>
          match acquireContainer eenv langs w sessionId options config expectedImage useShared sharedWorkspacePath with
          | (.error e, w) => (.error e, w)
          | (.ok (codePath0, cid), w) =>
            let codePathStep : (Except String String) × World :=
              if codePath0 = "" then
                match dockerLookup w cid with
                | some c =>
                  (.ok (if useShared then sharedWorkspacePath.getD "" else tempPathForContainer c.name), w)
                | none => (.error "no such container", w)
              else (.ok codePath0, w)
            match codePathStep with
            | (.error e, w) => (.error e, w)
            | (.ok codePath, w) =>
              let prepStep : (Except String Unit) × World :=
                if config.strategy == ContainerStrategy.PER_SESSION ||
                   config.strategy == ContainerStrategy.POOL then
                  prepareWorkspace langs w cid codePath options
                else (.ok (), w)
              match prepStep with
              | (.error e, w) => (.error e, w)
              | (.ok _, w) =>
                match executeInContainer hash langs eenv.run w cid options config codePath with
                | (.error e, w) => (.error e, w)
                | (.ok outcome, w) =>
                  let w :=
                    if config.strategy == ContainerStrategy.PER_EXECUTION then
                      deleteSession (removeContainerAndDir w cid) sessionId
                    else w
                  (.ok outcome, w)

/-- Insert sorting by descending string length, modelling the JS comparator
`(a, b) => b.length - a.length`. -/
def insertByLenDesc (x : String) : List String → List String
  | [] => [x]
  | y :: ys => if y.length ≤ x.length then x :: y :: ys else y :: insertByLenDesc x ys

/-- Sort by descending length. -/
def sortByLenDesc (l : List String) : List String := l.foldr insertByLenDesc []

/-- `cleanWorkspaceKeepGenerated`: delete every file under the workspace that
is not in the generated set, then remove empty directories bottom-up, keeping
the workspace root. -/
def cleanWorkspaceKeepGenerated (w : World) (cid : String) (generatedFiles : List String) : World :=
  let workspaceDir := getWorkspaceDir w cid
  let all := listAllFiles w.fs workspaceDir
  let fs := all.foldl (fun fs file => if generatedFiles.contains file then fs else rmFile fs file) w.fs
  let dirs := sortByLenDesc (all.map parentDir)
  let fs := dirs.foldl (fun fs d => if d == workspaceDir then fs else rmdirIfEmpty fs d) fs
  { w with fs := fs }

/-- Oracle for one cleanupSession call. -/
structure CleanupEnv where
  now : Nat
  cleanupExit : Option Int := some 0
  topUpSupply : List CreateOracle := []
deriving DecidableEq, Repr

/-- `cleanupSession`: POOL containers go back to the pool; otherwise, when
generated files are kept and nonempty, prune the workspace and intend to
retain the directory, then call the manager's removeContainerAndDir (whose
one-parameter signature discards the engine's deleteDir argument). Finally
drop the session entry and all idle-retained containers. -/
def cleanupSession (cenv : CleanupEnv) (w : World) (sessionId : String)
    (keepGeneratedFiles : Bool) : World :=
  let container := getContainer w sessionId
  let config := getSessionConfig w sessionId
  let w :=
    match container with
    | some cid =>
      let w :=
        if (config.map (·.strategy)) == some ContainerStrategy.POOL then
          returnContainerToPool { now := cenv.now, cleanupExit := cenv.cleanupExit }
            cenv.topUpSupply w cid
        else
          let pruneStep : Bool × World :=
            if keepGeneratedFiles then
              match getContainerMeta w cid with
              | some m =>
                if m.sessionGeneratedFiles.length > 0 then
                  (false, cleanWorkspaceKeepGenerated w cid m.sessionGeneratedFiles)
                else (true, w)
              | none => (true, w)
            else (true, w)
          match pruneStep with
          | (_deleteDir, w) => removeContainerAndDir w cid
      deleteSession w sessionId
    | none => w
  let idleList := getIdleContainers w sessionId
  let w := idleList.foldl (fun w icid => removeContainerAndDir w icid) w
  clearIdleContainers w sessionId

/-- Oracle for one createSession call. -/
structure SessionEnv where
  now : Nat
  uuidSession : String := "u-session"
  uuidContainer : String := "u-container"
  create : CreateOracle := {}
deriving DecidableEq, Repr

/-- `createSession`: resolve or draw the session id; an existing id is reused
unless enforceNewSession makes it an error. A new session stores its config;
only PER_SESSION additionally makes a workspace directory and creates and
registers a container for it. -/
def createSession (senv : SessionEnv) (w : World) (config : SessionConfig) :
    (Except String String) × World :=
  let sessionId := config.sessionId.getD senv.uuidSession
  if hasSession w sessionId then
    if config.enforceNewSession then
      (.error ("Session ID " ++ sessionId ++ " already exists"), w)
    else (.ok sessionId, w)
  else
    let w := setSessionConfig w sessionId config
    if config.strategy == ContainerStrategy.PER_SESSION then
      let containerName := "it_" ++ senv.uuidContainer
      let codeDir := tempPathForContainer containerName
      let w := { w with fs := mkdirp w.fs codeDir }
      match createContainer senv.create w
          { config.containerConfig with
            name := some containerName,
            mounts := config.containerConfig.mounts ++
              [{ type := MountType.directory, source := codeDir, target := "/workspace" }] } with
      | (.error e, w) => (.error e, w)
      | (.ok cid, w) =>
        let w := setContainer w sessionId (some cid)
        let w := setContainerMeta w cid
          { sessionId := sessionId, depsInstalled := false, depsChecksum := none,
            baselineFiles := [], workspaceDir := codeDir, generatedFiles := [],
            sessionGeneratedFiles := [], isRunning := false, createdAt := senv.now,
            lastExecutedAt := none, containerId := cid,
            imageName := config.containerConfig.image, containerName := containerName }
        (.ok sessionId, w)
    else (.ok sessionId, w)

/-- `addFileFromBase64`: decode and write under the session's workspace. -/
def addFileFromBase64 (w : World) (sessionId relativePath dataBase64 : String) :
    (Except String Unit) × World :=
  match getContainer w sessionId with
  | none => (.error "Session not found", w)
  | some cid =>
    let workspaceDir := getWorkspaceDir w cid
    let fullPath := joinPath workspaceDir relativePath
    let fs := mkdirp w.fs (parentDir fullPath)
    (.ok (), { w with fs := writeFile fs fullPath (decodeB64 dataBase64) })

/-- `readFileBase64`: read the file under the session's workspace and encode
its bytes. -/
def readFileBase64 (w : World) (sessionId relativePath : String) : Except String String :=
  match getContainer w sessionId with
  | none => .error "Session not found"
  | some cid =>
    let workspaceDir := getWorkspaceDir w cid
    match alookup w.fs.files (joinPath workspaceDir relativePath) with
    | none => .error "ENOENT"
    | some bytes => .ok (encodeB64Str bytes)

/-! ## Supporting lemmas -/

theorem idxOf?_lt {c : Char} : ∀ {l : List Char} {n : Nat}, idxOf? c l = some n → n < l.length := by
  intro l
  induction l with
  | nil => intro n h; simp [idxOf?] at h
  | cons a as ih =>
    intro n h
    simp only [idxOf?] at h
    by_cases hac : a = c
    · rw [if_pos hac] at h
      cases h
      simp
    · rw [if_neg hac] at h
      rw [Option.map_eq_some'] at h
      obtain ⟨k, hk, rfl⟩ := h
      have := ih hk
      simp only [List.length_cons]
      omega

theorem valOf?_lt {c : Char} {n : Nat} (h : valOf? c = some n) : n < 64 := by
  have := idxOf?_lt (c := c) (l := b64Chars) h
  simpa [b64Chars] using this

theorem valOf?_charOf : ∀ n, n < 64 → valOf? (charOf n) = some n := by decide

theorem valOf?_pad : valOf? '=' = none := by decide

theorem mul_add_div_eq (x y k : Nat) (hk : 0 < k) (hy : y < k) : (x * k + y) / k = x := by
  rw [Nat.mul_comm, Nat.mul_add_div hk, Nat.div_eq_of_lt hy, Nat.add_zero]

theorem mul_add_mod_eq (x y k : Nat) (hy : y < k) : (x * k + y) % k = y := by
  rw [Nat.mul_comm, Nat.mul_add_mod]
  exact Nat.mod_eq_of_lt hy

theorem decodeVals_lt : ∀ {l : List Nat}, (∀ v ∈ l, v < 64) → ∀ b ∈ decodeVals l, b < 256 := by
  intro l
  induction l using decodeVals.induct with
  | case1 s1 s2 s3 s4 rest ih =>
    intro hv b hb
    simp only [decodeVals, List.mem_cons] at hb
    rcases hb with h | h | h | h
    · have h1 := hv s1 (by simp); have h2 := hv s2 (by simp); omega
    · have h2 := hv s2 (by simp); have h3 := hv s3 (by simp); omega
    · have h3 := hv s3 (by simp); have h4 := hv s4 (by simp); omega
    · exact ih (fun v hvm => hv v (by simp [hvm])) b h
  | case2 s1 s2 s3 =>
    intro hv b hb
    simp only [decodeVals, List.mem_cons, List.not_mem_nil, or_false] at hb
    rcases hb with h | h
    · have h1 := hv s1 (by simp); have h2 := hv s2 (by simp); omega
    · have h2 := hv s2 (by simp); have h3 := hv s3 (by simp); omega
  | case3 s1 s2 =>
    intro hv b hb
    simp only [decodeVals, List.mem_cons, List.not_mem_nil, or_false] at hb
    have h1 := hv s1 (by simp); have h2 := hv s2 (by simp); omega
  | case4 l h1 h2 h3 =>
    intro hv b hb
    rcases l with _ | ⟨a, _ | ⟨b', t⟩⟩
    · simp [decodeVals] at hb
    · simp [decodeVals] at hb
    · exact absurd hb (by simp [h1, h2, h3, decodeVals])

theorem decodeB64_lt (s : String) : ∀ b ∈ decodeB64 s, b < 256 := by
  unfold decodeB64
  apply decodeVals_lt
  intro v hv
  rw [List.mem_filterMap] at hv
  obtain ⟨c, _, hc⟩ := hv
  exact valOf?_lt hc

theorem decode_encode : ∀ (bs : List Nat), (∀ b ∈ bs, b < 256) →
    decodeVals ((encodeB64 bs).filterMap valOf?) = bs := by
  intro bs
  induction bs using encodeB64.induct with
  | case1 => intro _; rfl
  | case2 b1 =>
    intro h
    have hb1 := h b1 (by simp)
    simp only [encodeB64, List.filterMap_cons, List.filterMap_nil, valOf?_pad,
      valOf?_charOf (b1 / 4) (by omega), valOf?_charOf (b1 % 4 * 16) (by omega)]
    simp only [decodeVals, List.cons.injEq, and_true]
    rw [Nat.mul_div_cancel _ (by norm_num)]
    omega
  | case3 b1 b2 =>
    intro h
    have hb1 := h b1 (by simp); have hb2 := h b2 (by simp)
    simp only [encodeB64, List.filterMap_cons, List.filterMap_nil, valOf?_pad,
      valOf?_charOf (b1 / 4) (by omega),
      valOf?_charOf (b1 % 4 * 16 + b2 / 16) (by omega),
      valOf?_charOf (b2 % 16 * 4) (by omega)]
    simp only [decodeVals, List.cons.injEq, and_true]
    rw [mul_add_div_eq _ _ 16 (by norm_num) (by omega),
        mul_add_mod_eq _ _ 16 (by omega),
        Nat.mul_div_cancel _ (by norm_num)]
    omega
  | case4 b1 b2 b3 rest ih =>
    intro h
    have hb1 := h b1 (by simp); have hb2 := h b2 (by simp); have hb3 := h b3 (by simp)
    simp only [encodeB64, List.filterMap_cons,
      valOf?_charOf (b1 / 4) (by omega),
      valOf?_charOf (b1 % 4 * 16 + b2 / 16) (by omega),
      valOf?_charOf (b2 % 16 * 4 + b3 / 64) (by omega),
      valOf?_charOf (b3 % 64) (by omega)]
    simp only [decodeVals, List.cons.injEq]
    rw [ih (fun b hb => h b (by simp [hb]))]
    rw [mul_add_div_eq _ _ 16 (by norm_num) (by omega),
        mul_add_mod_eq _ _ 16 (by omega),
        mul_add_div_eq _ _ 4 (by norm_num) (by omega),
        mul_add_mod_eq _ _ 4 (by omega)]
    refine ⟨by omega, by omega, by omega, rfl⟩

theorem decodeB64_encodeB64Str (bs : List Nat) (h : ∀ b ∈ bs, b < 256) :
    decodeB64 (encodeB64Str bs) = bs := by
  unfold decodeB64 encodeB64Str
  exact decode_encode bs h

theorem alookup_replace_self {α : Type} (l : List (String × α)) (k : String) (v : α)
    (hf : (l.find? (fun p => p.1 == k)).isSome) :
    alookup (l.map (fun p => if p.1 == k then (k, v) else p)) k = some v := by
  induction l with
  | nil => simp at hf
  | cons a as ih =>
    rw [List.map_cons]
    unfold alookup
    by_cases hak : (a.1 == k) = true
    · rw [if_pos hak]
      have hp : ((fun (p : String × α) => p.1 == k) ((k, v))) = true := by simp
      rw [List.find?_cons_of_pos (p := fun (q : String × α) => q.1 == k) _ hp]
      rfl
    · rw [if_neg hak]
      have hp : ¬((fun (p : String × α) => p.1 == k) a) := by simp [hak]
      rw [List.find?_cons_of_neg (p := fun (q : String × α) => q.1 == k) _ hp]
      have hf' : (as.find? (fun p => p.1 == k)).isSome := by
        rwa [List.find?_cons_of_neg (p := fun (q : String × α) => q.1 == k) _ hp] at hf
      exact ih hf'

theorem alookup_append_single {α : Type} (l : List (String × α)) (k : String) (v : α)
    (hf : ¬(l.find? (fun p => p.1 == k)).isSome) :
    alookup (l ++ [(k, v)]) k = some v := by
  induction l with
  | nil => simp [alookup, List.find?]
  | cons a as ih =>
    by_cases hak : (a.1 == k) = true
    · exfalso; apply hf; simp [List.find?_cons, hak]
    · have hp : ¬((fun (p : String × α) => p.1 == k) a) := by simp [hak]
      rw [List.cons_append]
      unfold alookup
      rw [List.find?_cons_of_neg (p := fun (q : String × α) => q.1 == k) _ hp]
      have hf' : ¬(as.find? (fun p => p.1 == k)).isSome := by
        rwa [List.find?_cons_of_neg (p := fun (q : String × α) => q.1 == k) _ hp] at hf
      exact ih hf'

theorem alookup_aset_self {α : Type} (l : List (String × α)) (k : String) (v : α) :
    alookup (aset l k v) k = some v := by
  unfold aset
  by_cases hf : (l.find? (fun p => p.1 == k)).isSome
  · rw [if_pos hf]; exact alookup_replace_self l k v hf
  · rw [if_neg hf]; exact alookup_append_single l k v hf


/-! ## Claim theorems -/

/-- A concrete stand-in for the opaque hash in closed scenarios. -/
def hashModel : String → String := fun s => "#" ++ s

/- Scenario A: a PER_SESSION shell session whose single run's user exec
reports exit code 0. -/
def scnSenvA : SessionEnv :=
  { now := 100, uuidContainer := "c1", create := { freshId := "cid1", freshName := "m1" } }
def scnCfgA : SessionConfig :=
  { strategy := .PER_SESSION, containerConfig := { image := "alpine:latest" }, sessionId := some "s1" }
def scnWorldA : World := (createSession scnSenvA World.init scnCfgA).2
def scnEenvA : ExecEnv := { now := 200, run := { now := 200, userStdout := "hello\n", userExecExit := some 0 } }
def scnRunA := executeCode hashModel defaultLanguageConfigs scnEenvA scnWorldA "s1"
  { language := "shell", code := "echo hello" }

/-- C1: the claim says a runtime-reported exit code is returned unchanged (0
for a successful run) and only a missing exit code falls back to 1. The code
computes `info.ExitCode || 1`, and JS `||` treats the reported 0 as falsy: in
this concrete successful run the runtime reports exit code 0, yet the
returned exitCode is 1. (Nonzero codes do pass through unchanged, and a
missing code gives 1, matching the rest of the claim.) -/
theorem exitCode_zero_becomes_one :
    scnEenvA.run.userExecExit = some 0 ∧
    scnRunA.1.toOption.map (fun o => o.result.exitCode) = some 1 := by decide

/- Scenario B: a PER_SESSION session whose containerConfig.image is set
explicitly, then an executeCode with language python. -/
def scnSenvB : SessionEnv :=
  { now := 10, uuidContainer := "cb", create := { freshId := "cidB1", freshName := "mb" } }
def scnCfgB : SessionConfig :=
  { strategy := .PER_SESSION, containerConfig := { image := "python:3.11-alpine" }, sessionId := some "s2" }
def scnWorldB : World := (createSession scnSenvB World.init scnCfgB).2
def scnEenvB : ExecEnv :=
  { now := 20, uuidMain := "cb2", uuidCreate := "cb3",
    create := { freshId := "cidB2", freshName := "mb2" }, run := { now := 20 } }
def scnRunB := executeCode hashModel defaultLanguageConfigs scnEenvB scnWorldB "s2"
  { language := "python", code := "print(1)" }

/-- C2: the claim says an explicitly set session containerConfig.image takes
precedence over the plugin default. The code computes
`getContainerImage(language) || containerConfig.image`, so the plugin default
wins whenever it is nonempty — always, for registered plugins. Here the
session sets image python:3.11-alpine, the run replaces the session's
container, and the container serving the session afterwards runs the plugin
default python:3.9-slim. -/
theorem pluginDefault_overrides_sessionImage :
    (getSessionConfig scnWorldB "s2").map (fun c => c.containerConfig.image) = some "python:3.11-alpine" ∧
    (registryGet defaultLanguageConfigs "python").map (fun c => c.defaultImage) = some "python:3.9-slim" ∧
    scnRunB.1.isOk = true ∧
    getContainer scnRunB.2 "s2" = some "cidB2" ∧
    (dockerLookup scnRunB.2 "cidB2").map (fun c => c.image) = some "python:3.9-slim" := by decide

/- Scenario C: on top of scenario A's session, a run whose user code creates
report.txt, followed by cleanupSession with keepGenerated = true. -/
def scnEenvC : ExecEnv :=
  { now := 300,
    run := { now := 300, userExecExit := some 0, runWrites := [("report.txt", strToBytes "data")] } }
def scnRunC := executeCode hashModel defaultLanguageConfigs scnEenvC scnWorldA "s1"
  { language := "shell", code := "touch report.txt" }
def scnWsA : String := tempPathForContainer "it_c1"
def scnCleanC : World := cleanupSession { now := 400 } scnRunC.2 "s1" true

/-- C3: the claim says cleanupSession(keepGenerated = true) leaves exactly
the sessionGeneratedFiles on disk and retains the workspace directory. In
this run report.txt is recorded in sessionGeneratedFiles and exists on disk,
yet after cleanupSession(keepGenerated = true) the file and the whole
workspace directory are gone: the engine computes deleteDir = false and
passes it on, but container-manager.ts declares removeContainerAndDir with a
single parameter and unconditionally deletes the directory. -/
theorem cleanupSession_keepGenerated_deletes_generated :
    (getContainerMeta scnRunC.2 "cid1").map (fun m => m.sessionGeneratedFiles) =
      some [joinPath scnWsA "report.txt"] ∧
    (alookup scnRunC.2.fs.files (joinPath scnWsA "report.txt")).isSome = true ∧
    alookup scnCleanC.fs.files (joinPath scnWsA "report.txt") = none ∧
    scnCleanC.fs.dirs.contains scnWsA = false := by decide

theorem addFileFromBase64_readFileBase64_roundtrip (w : World) (sessionId relativePath dataBase64 cid : String)
    (hc : getContainer w sessionId = some cid) :
    ∃ w', addFileFromBase64 w sessionId relativePath dataBase64 = (.ok (), w') ∧
      ∃ s, readFileBase64 w' sessionId relativePath = .ok s ∧
        decodeB64 s = decodeB64 dataBase64 := by
  simp only [addFileFromBase64, hc]
  refine ⟨_, rfl, ?_⟩
  refine ⟨encodeB64Str (decodeB64 dataBase64), ?_, decodeB64_encodeB64Str _ (decodeB64_lt dataBase64)⟩
  have hc2 : ∀ fsx : HostFS, getContainer { w with fs := fsx } sessionId = some cid := fun _ => hc
  have hwd : ∀ fsx : HostFS, getWorkspaceDir ({ w with fs := fsx } : World) cid = getWorkspaceDir w cid := fun _ => rfl
  simp only [readFileBase64, writeFile, hc2, hwd, alookup_aset_self]

/-- C9 witness: the round-trip at a concrete session and base64 input. -/
theorem addFileFromBase64_readFileBase64_roundtrip_witness :
    getContainer scnWorldA "s1" = some "cid1" ∧
    ∃ w', addFileFromBase64 scnWorldA "s1" "sub/data.bin" "aGVsbG8=" = (.ok (), w') ∧
      ∃ s, readFileBase64 w' "s1" "sub/data.bin" = .ok s ∧
        decodeB64 s = decodeB64 "aGVsbG8=" :=
  ⟨by decide, addFileFromBase64_readFileBase64_roundtrip scnWorldA "s1" "sub/data.bin" "aGVsbG8=" "cid1" (by decide)⟩

/- Scenario D: POOL strategy with the pool at capacity (5 busy entries), so
the engine creates a container outside the pool for the run. -/
def scnPoolRec (i : String) : ContainerRec :=
  { id := i, name := "it_p" ++ i, image := "alpine:latest", running := true, wsBind := none, wsFiles := [] }
def scnWorldD : World :=
  { World.init with
    docker := [("p1", scnPoolRec "p1"), ("p2", scnPoolRec "p2"), ("p3", scnPoolRec "p3"),
               ("p4", scnPoolRec "p4"), ("p5", scnPoolRec "p5")],
    pool := [{ cid := "p1", inUse := true, lastUsed := 50 }, { cid := "p2", inUse := true, lastUsed := 50 },
             { cid := "p3", inUse := true, lastUsed := 50 }, { cid := "p4", inUse := true, lastUsed := 50 },
             { cid := "p5", inUse := true, lastUsed := 50 }],
    sm := { World.init.sm with
      sessionConfigs := [("s4", { strategy := .POOL, containerConfig := { image := "alpine:latest" }, sessionId := some "s4" })] } }
def scnEenvD : ExecEnv :=
  { now := 60, uuidMain := "d1", uuidCreate := "d2",
    create := { freshId := "cidD", freshName := "dm" },
    pool := { now := 60 }, run := { now := 60, userExecExit := some 0 } }
def scnRunD := executeCode hashModel defaultLanguageConfigs scnEenvD scnWorldD "s4"
  { language := "shell", code := "echo hi" }
def scnCleanD : World := cleanupSession { now := 70 } scnRunD.2 "s4" false

/-- C8 counterexample: a successful POOL-strategy run whose container was
created outside the pool (the pool was at maxSize with every entry busy);
cleanupSession then reaches returnContainerToPool, which does not find the
container among the pool entries and force-removes it instead — the released
container is not present in the pool at all, contradicting the claim that it
ends up in the pool's entry list with inUse = false. -/
theorem pool_cleanup_overflow_cex :
    scnRunD.1.isOk = true ∧
    getContainer scnRunD.2 "s4" = some "cidD" ∧
    scnCleanD.pool.all (fun e => ¬(e.cid == "cidD")) = true := by decide

/-- C6: with workspaceSharing = shared on a session whose strategy is POOL or
PER_EXECUTION, executeCode fails with the configuration error and returns the
world exactly unchanged — the guard sits before any container selection,
creation or teardown; the same guard does not reject PER_SESSION. -/
theorem shared_workspace_guard (hash : String → String) (langs : List LanguageConfig)
    (eenv : ExecEnv) (w : World) (sessionId : String) (options : ExecutionOptions)
    (cfg : SessionConfig)
    (hcfg : getSessionConfig w sessionId = some cfg)
    (hsh : options.workspaceSharing = some WorkspaceSharing.shared) :
    ((cfg.strategy = ContainerStrategy.POOL ∨ cfg.strategy = ContainerStrategy.PER_EXECUTION) →
      executeCode hash langs eenv w sessionId options = (.error sharedGuardMsg, w)) ∧
    workspaceSharingRejected options ContainerStrategy.PER_SESSION = false := by
  constructor
  · intro hstrat
    have hrej : workspaceSharingRejected options cfg.strategy = true := by
      unfold workspaceSharingRejected
      rw [hsh]
      rcases hstrat with h | h <;> simp [h]
    simp only [executeCode, hcfg, hrej, if_pos]
  · unfold workspaceSharingRejected
    rw [hsh]
    simp

/-- C6 witness: the guard fires on a concrete POOL session, leaving the world
untouched. -/
theorem shared_workspace_guard_witness :
    getSessionConfig scnWorldD "s4" =
      some { strategy := .POOL, containerConfig := { image := "alpine:latest" }, sessionId := some "s4" } ∧
    (executeCode hashModel defaultLanguageConfigs scnEenvD scnWorldD "s4"
        { language := "shell", code := "x", workspaceSharing := some WorkspaceSharing.shared } =
      (.error sharedGuardMsg, scnWorldD)) :=
  ⟨by decide,
   (shared_workspace_guard hashModel defaultLanguageConfigs scnEenvD scnWorldD "s4"
      { language := "shell", code := "x", workspaceSharing := some WorkspaceSharing.shared }
      { strategy := .POOL, containerConfig := { image := "alpine:latest" }, sessionId := some "s4" }
      (by decide) rfl).1 (Or.inl rfl)⟩

/-! ### C10: createSession frame -/

theorem mem_addDirs_left (ds : List String) : ∀ (dirs : List String) (d : String),
    d ∈ dirs → d ∈ addDirs dirs ds := by
  induction ds with
  | nil => intro dirs d h; exact h
  | cons x xs ih =>
    intro dirs d h
    unfold addDirs
    rw [List.foldl_cons]
    apply ih
    split
    · exact h
    · exact List.mem_append_left _ h

theorem mem_addDirs_right (ds : List String) : ∀ (dirs : List String) (d : String),
    d ∈ ds → d ∈ addDirs dirs ds := by
  induction ds with
  | nil => intro dirs d h; simp at h
  | cons x xs ih =>
    intro dirs d h
    rcases List.mem_cons.mp h with rfl | hxs
    · unfold addDirs
      rw [List.foldl_cons]
      apply mem_addDirs_left
      split
      · next hcond => simpa [List.elem_iff] using hcond
      · exact List.mem_append_right _ (by simp)
    · unfold addDirs
      rw [List.foldl_cons]
      exact ih _ d hxs

/-- C10: a createSession with strategy POOL or PER_EXECUTION only records the
session configuration and returns the id — the docker daemon, the host
filesystem, the pool, the tracking map and every other session-manager table
are exactly unchanged (so image pulls and container starts cannot fail
there); only a PER_SESSION createSession provisions a container and makes its
workspace directory at session-creation time. -/
theorem createSession_records_config_only (senv : SessionEnv) (w : World) (config : SessionConfig)
    (sid : String)
    (hsid : sid = config.sessionId.getD senv.uuidSession)
    (hfresh : hasSession w sid = false)
    (hpull : senv.create.pullOk = true) :
    ((config.strategy = ContainerStrategy.POOL ∨ config.strategy = ContainerStrategy.PER_EXECUTION) →
      createSession senv w config = (.ok sid, setSessionConfig w sid config) ∧
      (setSessionConfig w sid config).docker = w.docker ∧
      (setSessionConfig w sid config).fs = w.fs ∧
      (setSessionConfig w sid config).pool = w.pool ∧
      (setSessionConfig w sid config).cmTracked = w.cmTracked ∧
      (setSessionConfig w sid config).sm.sessionContainers = w.sm.sessionContainers ∧
      (setSessionConfig w sid config).sm.containerMeta = w.sm.containerMeta ∧
      (setSessionConfig w sid config).sm.sessionContainerHistory = w.sm.sessionContainerHistory ∧
      (setSessionConfig w sid config).sm.idleContainers = w.sm.idleContainers) ∧
    (config.strategy = ContainerStrategy.PER_SESSION →
      ∃ w', createSession senv w config = (.ok sid, w') ∧
        getContainer w' sid = some senv.create.freshId ∧
        (dockerLookup w' senv.create.freshId).isSome = true ∧
        tempPathForContainer ("it_" ++ senv.uuidContainer) ∈ w'.fs.dirs) := by
  subst hsid
  constructor
  · intro hstrat
    refine ⟨?_, rfl, rfl, rfl, rfl, rfl, rfl, rfl, rfl⟩
    rcases hstrat with h | h <;> simp [createSession, hfresh, h]
  · intro hps
    simp only [createSession, hfresh, Bool.false_eq_true, if_false, hps, beq_self_eq_true, if_true]
    unfold createContainer
    rw [hpull]
    simp only [Bool.not_true, Bool.false_eq_true, if_false]
    refine ⟨_, rfl, ?_, ?_, ?_⟩
    · exact alookup_aset_self _ _ _
    · unfold dockerLookup setContainerMeta setContainer
      rw [alookup_aset_self]
      rfl
    · apply mem_addDirs_right
      simp

/-- C10 witness: a concrete POOL createSession on the empty world. -/
theorem createSession_records_config_only_witness :
    hasSession World.init "sp" = false ∧
    createSession { now := 1 } World.init
        { strategy := .POOL, containerConfig := { image := "img" }, sessionId := some "sp" } =
      (.ok "sp", setSessionConfig World.init "sp"
        { strategy := .POOL, containerConfig := { image := "img" }, sessionId := some "sp" }) :=
  ⟨by decide,
   ((createSession_records_config_only { now := 1 } World.init
      { strategy := .POOL, containerConfig := { image := "img" }, sessionId := some "sp" }
      "sp" rfl (by decide) (by decide)).1 (Or.inl rfl)).1⟩

/-! ### C8: pool release lemmas -/

theorem alookup_adel_ne {α : Type} (l : List (String × α)) (k k' : String) (h : ¬k' = k) :
    alookup (adel l k) k' = alookup l k' := by
  induction l with
  | nil => rfl
  | cons a as ih =>
    unfold adel alookup
    by_cases hak : (a.1 == k) = true
    · rw [List.filter_cons_of_neg (by simp [hak])]
      have : ¬((fun (q : String × α) => q.1 == k') a) := by
        simp only [beq_iff_eq] at hak ⊢
        rw [hak]
        exact fun hc => h hc.symm
      rw [List.find?_cons_of_neg (p := fun (q : String × α) => q.1 == k') _ this]
      exact ih
    · rw [List.filter_cons_of_pos (by simp [hak])]
      by_cases hak' : (a.1 == k') = true
      · rw [List.find?_cons_of_pos (p := fun (q : String × α) => q.1 == k') _ hak',
           List.find?_cons_of_pos (p := fun (q : String × α) => q.1 == k') _ hak']
      · rw [List.find?_cons_of_neg (p := fun (q : String × α) => q.1 == k') _ (by simpa using hak'),
           List.find?_cons_of_neg (p := fun (q : String × α) => q.1 == k') _ (by simpa using hak')]
        exact ih

theorem alookup_map_replace_ne {α : Type} (l : List (String × α)) (k k' : String) (v : α)
    (h : ¬k' = k) :
    alookup (l.map (fun p => if p.1 == k then (k, v) else p)) k' = alookup l k' := by
  induction l with
  | nil => rfl
  | cons a as ih =>
    rw [List.map_cons]
    unfold alookup
    by_cases hak : (a.1 == k) = true
    · rw [if_pos hak]
      have h1 : ¬((fun (q : String × α) => q.1 == k') (k, v)) := by
        simp only [beq_iff_eq]
        exact fun hc => h hc.symm
      have h2 : ¬((fun (q : String × α) => q.1 == k') a) := by
        simp only [beq_iff_eq] at hak ⊢
        rw [hak]
        exact fun hc => h hc.symm
      rw [List.find?_cons_of_neg (p := fun (q : String × α) => q.1 == k') _ h1,
         List.find?_cons_of_neg (p := fun (q : String × α) => q.1 == k') _ h2]
      exact ih
    · rw [if_neg hak]
      by_cases hak' : (a.1 == k') = true
      · rw [List.find?_cons_of_pos (p := fun (q : String × α) => q.1 == k') _ hak',
           List.find?_cons_of_pos (p := fun (q : String × α) => q.1 == k') _ hak']
      · rw [List.find?_cons_of_neg (p := fun (q : String × α) => q.1 == k') _ (by simpa using hak'),
           List.find?_cons_of_neg (p := fun (q : String × α) => q.1 == k') _ (by simpa using hak')]
        exact ih

theorem alookup_append_single_ne {α : Type} (l : List (String × α)) (k k' : String) (v : α)
    (h : ¬k' = k) :
    alookup (l ++ [(k, v)]) k' = alookup l k' := by
  unfold alookup
  rw [List.find?_append]
  have hnone : List.find? (fun (q : String × α) => q.1 == k') [(k, v)] = none := by
    rw [List.find?_cons_of_neg (p := fun (q : String × α) => q.1 == k') _ (by
      simp only [beq_iff_eq]
      exact fun hc => h hc.symm)]
    rfl
  rw [hnone]
  cases List.find? (fun (q : String × α) => q.1 == k') l <;> rfl

theorem alookup_aset_ne {α : Type} (l : List (String × α)) (k k' : String) (v : α) (h : ¬k' = k) :
    alookup (aset l k v) k' = alookup l k' := by
  unfold aset
  split
  · exact alookup_map_replace_ne l k k' v h
  · exact alookup_append_single_ne l k k' v h

theorem removeContainerAndDir_docker_ne (w : World) (rid cid : String) (h : ¬cid = rid) :
    dockerLookup (removeContainerAndDir w rid) cid = dockerLookup w cid := by
  unfold removeContainerAndDir
  cases hdl : dockerLookup w rid with
  | none => rfl
  | some c => exact alookup_adel_ne _ _ _ h

theorem removeContainerAndDir_pool_mem (w : World) (rid : String) (x : PoolEntry)
    (hx : x ∈ w.pool) (h : ¬x.cid = rid) : x ∈ (removeContainerAndDir w rid).pool := by
  unfold removeContainerAndDir
  cases hdl : dockerLookup w rid with
  | none => exact hx
  | some c =>
    simp only []
    rw [List.mem_filter]
    exact ⟨hx, by simpa using h⟩

theorem fold_remove_docker (l : List PoolEntry) : ∀ (w : World) (cid : String),
    (∀ r ∈ l, ¬r.cid = cid) →
    dockerLookup (l.foldl (fun w e => removeContainerAndDir w e.cid) w) cid = dockerLookup w cid := by
  induction l with
  | nil => intro w cid _; rfl
  | cons r rs ih =>
    intro w cid h
    rw [List.foldl_cons]
    rw [ih _ cid (fun q hq => h q (List.mem_cons_of_mem _ hq))]
    exact removeContainerAndDir_docker_ne w r.cid cid (fun hc => h r (by simp) hc.symm)

theorem fold_remove_pool_mem (l : List PoolEntry) : ∀ (w : World) (x : PoolEntry),
    x ∈ w.pool → (∀ r ∈ l, ¬r.cid = x.cid) →
    x ∈ (l.foldl (fun w e => removeContainerAndDir w e.cid) w).pool := by
  induction l with
  | nil => intro w x hx _; exact hx
  | cons r rs ih =>
    intro w x hx h
    rw [List.foldl_cons]
    apply ih
    · exact removeContainerAndDir_pool_mem w r.cid x hx (fun hc => h r (by simp) hc.symm)
    · exact fun q hq => h q (List.mem_cons_of_mem _ hq)

theorem createContainer_pool (o : CreateOracle) (w : World) (cfg : ContainerConfig) :
    (createContainer o w cfg).2.pool = w.pool := by
  unfold createContainer
  split <;> rfl

theorem createContainer_docker_ne (o : CreateOracle) (w : World) (cfg : ContainerConfig)
    (cid : String) (h : ¬cid = o.freshId) :
    dockerLookup (createContainer o w cfg).2 cid = dockerLookup w cid := by
  unfold createContainer
  split
  · rfl
  · exact alookup_aset_ne _ _ _ _ h

theorem topUpPool_pool_mem (supply : List CreateOracle) : ∀ (now : Nat) (img : Option String)
    (w : World) (x : PoolEntry), x ∈ w.pool → x ∈ (topUpPool supply now img w).pool := by
  induction supply with
  | nil => intro now img w x hx; exact hx
  | cons o os ih =>
    intro now img w x hx
    unfold topUpPool
    split
    · cases hcr : createContainer o w { image := img.getD "node:18-alpine", mounts := [] } with
      | mk r w' =>
        cases r with
        | ok cid =>
          simp only []
          apply ih
          simp only [List.mem_append]
          left
          have : w'.pool = w.pool := by
            have := createContainer_pool o w { image := img.getD "node:18-alpine", mounts := [] }
            rw [hcr] at this
            exact this
          rw [this]
          exact hx
        | error e =>
          simp only []
          have : w'.pool = w.pool := by
            have := createContainer_pool o w { image := img.getD "node:18-alpine", mounts := [] }
            rw [hcr] at this
            exact this
          rw [this]
          exact hx
    · exact hx

theorem topUpPool_docker_ne (supply : List CreateOracle) : ∀ (now : Nat) (img : Option String)
    (w : World) (cid : String), (∀ o ∈ supply, ¬o.freshId = cid) →
    dockerLookup (topUpPool supply now img w) cid = dockerLookup w cid := by
  induction supply with
  | nil => intro now img w cid _; rfl
  | cons o os ih =>
    intro now img w cid hs
    unfold topUpPool
    split
    · cases hcr : createContainer o w { image := img.getD "node:18-alpine", mounts := [] } with
      | mk r w' =>
        have hne : ¬cid = o.freshId := fun hc => hs o (by simp) hc.symm
        have hd : dockerLookup w' cid = dockerLookup w cid := by
          have := createContainer_docker_ne o w { image := img.getD "node:18-alpine", mounts := [] } cid hne
          rw [hcr] at this
          exact this
        cases r with
        | ok cid2 =>
          simp only []
          rw [ih now img _ cid (fun q hq => hs q (List.mem_cons_of_mem _ hq))]
          exact hd
        | error e =>
          simp only []
          exact hd
    · rfl

theorem cleanupPool_preserves (supply : List CreateOracle) (now : Nat) (img : Option String)
    (w : World) (cid : String) (x : PoolEntry)
    (hx : x ∈ w.pool) (hxcid : x.cid = cid)
    (hfreshU : ∀ y ∈ w.pool, y.cid = cid → y.lastUsed = now)
    (hsupply : ∀ o ∈ supply, ¬o.freshId = cid) :
    x ∈ (cleanupPool supply now img w).pool ∧
    dockerLookup (cleanupPool supply now img w) cid = dockerLookup w cid := by
  simp only [cleanupPool]
  have hto : ∀ r ∈ w.pool.filter (fun e => ¬e.inUse && decide (now - e.lastUsed > poolConfigIdleTimeout)),
      ¬r.cid = cid := by
    intro r hr hrc
    rw [List.mem_filter] at hr
    have hlast := hfreshU r hr.1 hrc
    have h2 := hr.2
    rw [hlast] at h2
    simp [Nat.sub_self, poolConfigIdleTimeout] at h2
  constructor
  · apply topUpPool_pool_mem
    exact fold_remove_pool_mem _ _ x hx (fun r hr => by rw [hxcid]; exact hto r hr)
  · rw [topUpPool_docker_ne supply now img _ cid hsupply]
    exact fold_remove_docker _ _ cid hto

/-- C8 (amended): for a successful POOL run whose container is a member of
the pool's entry list, cleanupSession's release path (returnContainerToPool)
with a cleanup exec that exits 0 leaves the container present in the pool
with inUse = false and its /workspace cleaned; the cleanup exec is awaited
and its exit code checked, and on failure or non-membership the container is
removed instead. The amendment over the original claim: the container must be
a pool member — a container created when the pool was at capacity is
force-removed, as the counterexample shows. -/
theorem returnContainerToPool_member_released
    (penv : PoolEnv) (supply : List CreateOracle) (w : World) (cid : String) (e : PoolEntry)
    (c : ContainerRec)
    (hfind : w.pool.find? (fun x => x.cid == cid) = some e)
    (hexit : penv.cleanupExit = some 0)
    (hdocker : dockerLookup w cid = some c)
    (hcoh : c.id = cid)
    (hsupply : ∀ o ∈ supply, ¬o.freshId = cid) :
    ∃ x ∈ (returnContainerToPool penv supply w cid).pool,
      x.cid = cid ∧ x.inUse = false ∧
      (dockerLookup (returnContainerToPool penv supply w cid) cid).map (fun c => c.wsFiles) =
        some [] := by
  have he_mem : e ∈ w.pool := List.mem_of_find?_eq_some hfind
  have he_cid : e.cid = cid := by
    have := List.find?_some hfind
    simpa using this
  have hz : jsCoalesce penv.cleanupExit 1 = 0 := by rw [hexit]; rfl
  unfold returnContainerToPool
  rw [hfind, if_pos hz]
  simp only [containerWsClear, hdocker]
  have hfe : (fun x => if x.cid == cid then { x with inUse := false, lastUsed := penv.now } else x) e
      = { e with inUse := false, lastUsed := penv.now } := by
    simp [he_cid]
  cases hb : c.wsBind with
  | none =>
    simp only []
    refine ⟨{ e with inUse := false, lastUsed := penv.now }, ?_, he_cid, rfl, ?_⟩
    · refine (cleanupPool_preserves supply penv.now _ _ cid ({ e with inUse := false, lastUsed := penv.now }) ?_ he_cid ?_ hsupply).1
      · rw [show ({ e with inUse := false, lastUsed := penv.now } : PoolEntry)
            = (fun x => if x.cid == cid then { x with inUse := false, lastUsed := penv.now } else x) e
          from hfe.symm]
        exact List.mem_map_of_mem _ he_mem
      · intro y hy hyc
        rw [List.mem_map] at hy
        obtain ⟨z, hz, rfl⟩ := hy
        by_cases hzc : (z.cid == cid) = true
        · simp [hzc]
        · rw [if_neg hzc] at hyc ⊢
          exact absurd (by simp [hyc]) hzc
    · rw [(cleanupPool_preserves supply penv.now _ _ cid ({ e with inUse := false, lastUsed := penv.now }) ?_ he_cid ?_ hsupply).2]
      · show Option.map (fun c => c.wsFiles)
            (alookup (aset w.docker c.id
              { id := c.id, name := c.name, image := c.image, running := c.running,
                wsBind := none, wsFiles := [] }) cid) = some []
        rw [hcoh, alookup_aset_self]
        rfl
      · rw [show ({ e with inUse := false, lastUsed := penv.now } : PoolEntry)
            = (fun x => if x.cid == cid then { x with inUse := false, lastUsed := penv.now } else x) e
          from hfe.symm]
        exact List.mem_map_of_mem _ he_mem
      · intro y hy hyc
        rw [List.mem_map] at hy
        obtain ⟨z, hz, rfl⟩ := hy
        by_cases hzc : (z.cid == cid) = true
        · simp [hzc]
        · rw [if_neg hzc] at hyc ⊢
          exact absurd (by simp [hyc]) hzc
  | some d =>
    simp only []
    refine ⟨{ e with inUse := false, lastUsed := penv.now }, ?_, he_cid, rfl, ?_⟩
    · refine (cleanupPool_preserves supply penv.now _ _ cid ({ e with inUse := false, lastUsed := penv.now }) ?_ he_cid ?_ hsupply).1
      · rw [show ({ e with inUse := false, lastUsed := penv.now } : PoolEntry)
            = (fun x => if x.cid == cid then { x with inUse := false, lastUsed := penv.now } else x) e
          from hfe.symm]
        exact List.mem_map_of_mem _ he_mem
      · intro y hy hyc
        rw [List.mem_map] at hy
        obtain ⟨z, hz, rfl⟩ := hy
        by_cases hzc : (z.cid == cid) = true
        · simp [hzc]
        · rw [if_neg hzc] at hyc ⊢
          exact absurd (by simp [hyc]) hzc
    · rw [(cleanupPool_preserves supply penv.now _ _ cid ({ e with inUse := false, lastUsed := penv.now }) ?_ he_cid ?_ hsupply).2]
      · show Option.map (fun c => c.wsFiles)
            (alookup (aset w.docker c.id
              { id := c.id, name := c.name, image := c.image, running := c.running,
                wsBind := some d, wsFiles := [] }) cid) = some []
        rw [hcoh, alookup_aset_self]
        rfl
      · rw [show ({ e with inUse := false, lastUsed := penv.now } : PoolEntry)
            = (fun x => if x.cid == cid then { x with inUse := false, lastUsed := penv.now } else x) e
          from hfe.symm]
        exact List.mem_map_of_mem _ he_mem
      · intro y hy hyc
        rw [List.mem_map] at hy
        obtain ⟨z, hz, rfl⟩ := hy
        by_cases hzc : (z.cid == cid) = true
        · simp [hzc]
        · rw [if_neg hzc] at hyc ⊢
          exact absurd (by simp [hyc]) hzc

/- A one-entry pool world for the C8 witness. -/
def scnPoolW : World :=
  { World.init with
    docker := [("q1", { id := "q1", name := "it_q1", image := "alpine:latest", running := true,
                        wsBind := none, wsFiles := ["junk.txt"] })],
    pool := [{ cid := "q1", inUse := true, lastUsed := 5 }] }

/-- C8 witness: releasing a concrete pool member with a successful cleanup
exec leaves it pooled, free, with an empty workspace. -/
theorem returnContainerToPool_member_released_witness :
    scnPoolW.pool.find? (fun x => x.cid == "q1") = some { cid := "q1", inUse := true, lastUsed := 5 } ∧
    ∃ x ∈ (returnContainerToPool { now := 9 } [] scnPoolW "q1").pool,
      x.cid = "q1" ∧ x.inUse = false ∧
      (dockerLookup (returnContainerToPool { now := 9 } [] scnPoolW "q1") "q1").map
        (fun c => c.wsFiles) = some [] :=
  ⟨by decide,
   returnContainerToPool_member_released { now := 9 } [] scnPoolW "q1"
     { cid := "q1", inUse := true, lastUsed := 5 }
     { id := "q1", name := "it_q1", image := "alpine:latest", running := true,
       wsBind := none, wsFiles := ["junk.txt"] }
     (by decide) rfl (by decide) rfl (by simp)⟩

/-- The generic single-run scenario: session "s" with container "c1", an
inline run of a language plugin with an installer, every other input left
symbolic. -/
def scnRunE (hash : String → String) (config : SessionConfig)
    (code cp : String) (deps : List String)
    (pf : ExecutionOptions → List (String × List Nat))
    (bic : Bool → List String) (brc : String → Bool → List String) (cf dI : String)
    (di : Bool) (dc : Option String) (bf gf sg : List String) (wd0 im cn : String)
    (ir : Bool) (ca : Nat) (lea : Option Nat)
    (dn dimg : String) (dr : Bool) (wb : Option String) (wf : List String)
    (f : HostFS) (ct : List String) (pl : List PoolEntry)
    (sc : List (String × SessionConfig)) (sh : List (String × List String))
    (il : List (String × List String))
    (ws : Option WorkspaceSharing) (cl ml : Option String)
    (env : RunEnv) : (Except String RunOutcome) × World :=
  executeInContainer hash
    [{ language := "L", defaultImage := dI, codeFilename := cf, prepareFiles := pf,
       buildInlineCommand := bic, buildRunAppCommand := brc, hasInstaller := true }]
    env
    { docker := [("c1", { id := "c1", name := dn, image := dimg, running := dr,
                          wsBind := wb, wsFiles := wf })],
      fs := f, cmTracked := ct, pool := pl,
      sm := { sessionConfigs := sc, sessionContainers := [("s", "c1")],
              containerMeta := [("c1",
                { sessionId := "s", depsInstalled := di, depsChecksum := dc,
                  baselineFiles := bf, workspaceDir := wd0, generatedFiles := gf,
                  sessionGeneratedFiles := sg, isRunning := ir, createdAt := ca,
                  lastExecutedAt := lea, containerId := "c1", imageName := im,
                  containerName := cn })],
              sessionContainerHistory := sh, idleContainers := il } }
    "c1"
    { language := "L", code := code, dependencies := deps, runApp := none,
      workspaceSharing := ws, cpuLimit := cl, memoryLimit := ml }
    config cp

/-- C7: for every execution whose dependency-install routine exits nonzero
(`hie`), with the checksum cache not matching (`hda`, so the installer is
actually invoked), the run still proceeds to execute the user code: the
installer's stdout/stderr are recorded on the result as
dependencyStdout/dependencyStderr, the inline command builder is invoked
with depsInstalled=false, the user stdout is that of the user exec, and the
container metadata keeps depsInstalled and depsChecksum unchanged. -/
theorem failed_install_proceeds
    (hash : String → String) (config : SessionConfig)
    (code cp : String) (deps : List String)
    (pf : ExecutionOptions → List (String × List Nat))
    (bic : Bool → List String) (brc : String → Bool → List String) (cf dI : String)
    (di : Bool) (dc : Option String) (bf gf sg : List String) (wd0 im cn : String)
    (ir : Bool) (ca : Nat) (lea : Option Nat)
    (dn dimg : String) (dr : Bool) (wb : Option String) (wf : List String)
    (f : HostFS) (ct : List String) (pl : List PoolEntry)
    (sc : List (String × SessionConfig)) (sh : List (String × List String))
    (il : List (String × List String))
    (ws : Option WorkspaceSharing) (cl ml : Option String)
    (n ms : Nat) (iso ise : String) (ie : Int) (iw : List (String × List Nat))
    (us ues : String) (ux : Option Int) (rws ehw : List (String × List Nat))
    (hda : (di && (dc == some (calculateDepsChecksum hash deps))) = false)
    (hie : (ie == 0) = false) :
    (scnRunE hash config code cp deps pf bic brc cf dI di dc bf gf sg wd0 im cn ir ca lea
        dn dimg dr wb wf f ct pl sc sh il ws cl ml
        { now := n, elapsedMs := ms, writeExecExit := some 0, installerStdout := iso,
          installerStderr := ise, installerExit := ie, installWrites := iw,
          userStdout := us, userStderr := ues, userExecExit := ux, runWrites := rws,
          extraHostWrites := ehw }).1.toOption.map
      (fun o => (o.result.dependencyStdout, o.result.dependencyStderr, o.installerInvoked,
                 o.commandRun, o.result.stdout)) =
      some (iso, ise, true, bic false, us) ∧
    (getContainerMeta
        (scnRunE hash config code cp deps pf bic brc cf dI di dc bf gf sg wd0 im cn ir ca lea
          dn dimg dr wb wf f ct pl sc sh il ws cl ml
          { now := n, elapsedMs := ms, writeExecExit := some 0, installerStdout := iso,
            installerStderr := ise, installerExit := ie, installWrites := iw,
            userStdout := us, userStderr := ues, userExecExit := ux, runWrites := rws,
            extraHostWrites := ehw }).2 "c1").map
      (fun mm => (mm.depsInstalled, mm.depsChecksum)) = some (di, dc) := by
  constructor
  · cases wb with
    | none =>
      simp [scnRunE, executeInContainer, installDependencies, listWorkspaceFiles,
        containerWsWrite, updateMeta, updateContainerState, getContainerMeta, getContainer,
        getWorkspaceDir, dockerLookup, dockerSet, jsCoalesce, jsOrExitCode,
        registryGet, alookup, aset, adel, hda, hie]
      exact ⟨_, rfl, rfl, rfl, rfl, rfl, rfl⟩
    | some d =>
      simp [scnRunE, executeInContainer, installDependencies, listWorkspaceFiles,
        containerWsWrite, updateMeta, updateContainerState, getContainerMeta, getContainer,
        getWorkspaceDir, dockerLookup, dockerSet, jsCoalesce, jsOrExitCode,
        registryGet, alookup, aset, adel, hda, hie]
      exact ⟨_, rfl, rfl, rfl, rfl, rfl, rfl⟩
  · cases wb with
    | none =>
      simp [scnRunE, executeInContainer, installDependencies, listWorkspaceFiles,
        containerWsWrite, updateMeta, updateContainerState, getContainerMeta, getContainer,
        getWorkspaceDir, dockerLookup, dockerSet, jsCoalesce, jsOrExitCode,
        registryGet, alookup, aset, adel, hda, hie]
    | some d =>
      simp [scnRunE, executeInContainer, installDependencies, listWorkspaceFiles,
        containerWsWrite, updateMeta, updateContainerState, getContainerMeta, getContainer,
        getWorkspaceDir, dockerLookup, dockerSet, jsCoalesce, jsOrExitCode,
        registryGet, alookup, aset, adel, hda, hie]

theorem failed_install_proceeds_witness :
    (scnRunE hashModel { strategy := .PER_SESSION, containerConfig := { image := "x" } }
        "c" "/w" ["jq"] (fun _ => []) (fun _ => ["run"]) (fun e _ => [e]) "code.sh" "alpine"
        false none [] [] [] "/w" "img" "cn" false 0 none "dn" "dimg" true none []
        { files := [], dirs := [] } [] [] [] [] [] none none none
        { now := 1, elapsedMs := 2, writeExecExit := some 0, installerStdout := "ISO",
          installerStderr := "ISE", installerExit := 2, installWrites := [],
          userStdout := "US", userStderr := "UES", userExecExit := some 0, runWrites := [],
          extraHostWrites := [] }).1.toOption.map
      (fun o => (o.result.dependencyStdout, o.result.dependencyStderr, o.installerInvoked,
                 o.commandRun, o.result.stdout)) =
      some ("ISO", "ISE", true, ["run"], "US") :=
  (failed_install_proceeds hashModel { strategy := .PER_SESSION, containerConfig := { image := "x" } }
    "c" "/w" ["jq"] (fun _ => []) (fun _ => ["run"]) (fun e _ => [e]) "code.sh" "alpine"
    false none [] [] [] "/w" "img" "cn" false 0 none "dn" "dimg" true none []
    { files := [], dirs := [] } [] [] [] [] [] none none none
    1 2 "ISO" "ISE" 2 [] "US" "UES" (some 0) [] []
    (by decide) (by decide)).1

/-- Core accounting lemma for a single run: the reported generatedFiles are
the post-run listing under the workspace directory filtered against the
stored baseline, and the stored baseline is the pre-execution workspace
listing, re-captured from the post-install filesystem exactly when the
dependency phase ran and its exec exited 0. -/
theorem baseline_generated_core
    (hash : String → String) (config : SessionConfig)
    (code cp : String) (deps : List String)
    (pf : ExecutionOptions → List (String × List Nat))
    (bic : Bool → List String) (brc : String → Bool → List String) (cf dI : String)
    (di : Bool) (dc : Option String) (bf gf sg : List String) (wd0 im cn : String)
    (ir : Bool) (ca : Nat) (lea : Option Nat)
    (dn dimg : String) (dr : Bool) (wb : Option String) (wf : List String)
    (f : HostFS) (ct : List String) (pl : List PoolEntry)
    (sc : List (String × SessionConfig)) (sh : List (String × List String))
    (il : List (String × List String))
    (ws : Option WorkspaceSharing) (cl ml : Option String)
    (n ms : Nat) (iso ise : String) (ie : Int) (iw : List (String × List Nat))
    (us ues : String) (ux : Option Int) (rws ehw : List (String × List Nat)) :
    (scnRunE hash config code cp deps pf bic brc cf dI di dc bf gf sg wd0 im cn ir ca lea
        dn dimg dr wb wf f ct pl sc sh il ws cl ml
        { now := n, elapsedMs := ms, writeExecExit := some 0, installerStdout := iso,
          installerStderr := ise, installerExit := ie, installWrites := iw,
          userStdout := us, userStderr := ues, userExecExit := ux, runWrites := rws,
          extraHostWrites := ehw }).1.toOption.map (fun o => o.result.generatedFiles) =
      some ((listAllFiles
          (scnRunE hash config code cp deps pf bic brc cf dI di dc bf gf sg wd0 im cn ir ca lea
            dn dimg dr wb wf f ct pl sc sh il ws cl ml
            { now := n, elapsedMs := ms, writeExecExit := some 0, installerStdout := iso,
              installerStderr := ise, installerExit := ie, installWrites := iw,
              userStdout := us, userStderr := ues, userExecExit := ux, runWrites := rws,
              extraHostWrites := ehw }).2.fs cp).filter
        (fun p => strIsPrefixOf cp p &&
          ¬(((getContainerMeta
              (scnRunE hash config code cp deps pf bic brc cf dI di dc bf gf sg wd0 im cn ir ca lea
                dn dimg dr wb wf f ct pl sc sh il ws cl ml
                { now := n, elapsedMs := ms, writeExecExit := some 0, installerStdout := iso,
                  installerStderr := ise, installerExit := ie, installWrites := iw,
                  userStdout := us, userStderr := ues, userExecExit := ux, runWrites := rws,
                  extraHostWrites := ehw }).2 "c1").map (fun mm => mm.baselineFiles)).getD []).contains p)) ∧
    ((getContainerMeta
        (scnRunE hash config code cp deps pf bic brc cf dI di dc bf gf sg wd0 im cn ir ca lea
          dn dimg dr wb wf f ct pl sc sh il ws cl ml
          { now := n, elapsedMs := ms, writeExecExit := some 0, installerStdout := iso,
            installerStderr := ise, installerExit := ie, installWrites := iw,
            userStdout := us, userStderr := ues, userExecExit := ux, runWrites := rws,
            extraHostWrites := ehw }).2 "c1").map (fun mm => mm.baselineFiles)) =
      some ((listAllFiles
          (if (di && (dc == some (calculateDepsChecksum hash deps))) then f
           else if (ie == 0) then
             (match wb with
              | some d => iw.foldl (fun fs wr => writeFile fs (joinPath d wr.1) wr.2)
                  (writeFile f (joinPath d cf) (strToBytes (strTrim code)))
              | none => f)
           else f) cp).filter (fun p => strIsPrefixOf cp p)) := by
  constructor
  · cases wb with
    | none =>
      cases hda : (di && (dc == some (calculateDepsChecksum hash deps))) with
      | false =>
        cases hok : (ie == 0) with
        | false =>
          simp [scnRunE, executeInContainer, installDependencies, listWorkspaceFiles,
            containerWsWrite, updateMeta, updateContainerState, getContainerMeta, getContainer,
            getWorkspaceDir, dockerLookup, dockerSet, jsCoalesce, jsOrExitCode,
            registryGet, alookup, aset, adel, hda, hok]
          exact ⟨_, rfl, rfl⟩
        | true =>
          simp [scnRunE, executeInContainer, installDependencies, listWorkspaceFiles,
            containerWsWrite, updateMeta, updateContainerState, getContainerMeta, getContainer,
            getWorkspaceDir, dockerLookup, dockerSet, jsCoalesce, jsOrExitCode,
            registryGet, alookup, aset, adel, hda, hok]
          exact ⟨_, rfl, rfl⟩
      | true =>
        simp [scnRunE, executeInContainer, installDependencies, listWorkspaceFiles,
          containerWsWrite, updateMeta, updateContainerState, getContainerMeta, getContainer,
          getWorkspaceDir, dockerLookup, dockerSet, jsCoalesce, jsOrExitCode,
          registryGet, alookup, aset, adel, hda]
        exact ⟨_, rfl, rfl⟩
    | some d =>
      cases hda : (di && (dc == some (calculateDepsChecksum hash deps))) with
      | false =>
        cases hok : (ie == 0) with
        | false =>
          simp [scnRunE, executeInContainer, installDependencies, listWorkspaceFiles,
            containerWsWrite, updateMeta, updateContainerState, getContainerMeta, getContainer,
            getWorkspaceDir, dockerLookup, dockerSet, jsCoalesce, jsOrExitCode,
            registryGet, alookup, aset, adel, hda, hok]
          exact ⟨_, rfl, rfl⟩
        | true =>
          simp [scnRunE, executeInContainer, installDependencies, listWorkspaceFiles,
            containerWsWrite, updateMeta, updateContainerState, getContainerMeta, getContainer,
            getWorkspaceDir, dockerLookup, dockerSet, jsCoalesce, jsOrExitCode,
            registryGet, alookup, aset, adel, hda, hok]
          exact ⟨_, rfl, rfl⟩
      | true =>
        simp [scnRunE, executeInContainer, installDependencies, listWorkspaceFiles,
          containerWsWrite, updateMeta, updateContainerState, getContainerMeta, getContainer,
          getWorkspaceDir, dockerLookup, dockerSet, jsCoalesce, jsOrExitCode,
          registryGet, alookup, aset, adel, hda]
        exact ⟨_, rfl, rfl⟩
  · cases wb with
    | none =>
      cases hda : (di && (dc == some (calculateDepsChecksum hash deps))) with
      | false =>
        cases hok : (ie == 0) with
        | false =>
          simp [scnRunE, executeInContainer, installDependencies, listWorkspaceFiles,
            containerWsWrite, updateMeta, updateContainerState, getContainerMeta, getContainer,
            getWorkspaceDir, dockerLookup, dockerSet, jsCoalesce, jsOrExitCode,
            registryGet, alookup, aset, adel, hda, hok]
        | true =>
          simp [scnRunE, executeInContainer, installDependencies, listWorkspaceFiles,
            containerWsWrite, updateMeta, updateContainerState, getContainerMeta, getContainer,
            getWorkspaceDir, dockerLookup, dockerSet, jsCoalesce, jsOrExitCode,
            registryGet, alookup, aset, adel, hda, hok]
      | true =>
        simp [scnRunE, executeInContainer, installDependencies, listWorkspaceFiles,
          containerWsWrite, updateMeta, updateContainerState, getContainerMeta, getContainer,
          getWorkspaceDir, dockerLookup, dockerSet, jsCoalesce, jsOrExitCode,
          registryGet, alookup, aset, adel, hda]
    | some d =>
      cases hda : (di && (dc == some (calculateDepsChecksum hash deps))) with
      | false =>
        cases hok : (ie == 0) with
        | false =>
          simp [scnRunE, executeInContainer, installDependencies, listWorkspaceFiles,
            containerWsWrite, updateMeta, updateContainerState, getContainerMeta, getContainer,
            getWorkspaceDir, dockerLookup, dockerSet, jsCoalesce, jsOrExitCode,
            registryGet, alookup, aset, adel, hda, hok]
        | true =>
          simp [scnRunE, executeInContainer, installDependencies, listWorkspaceFiles,
            containerWsWrite, updateMeta, updateContainerState, getContainerMeta, getContainer,
            getWorkspaceDir, dockerLookup, dockerSet, jsCoalesce, jsOrExitCode,
            registryGet, alookup, aset, adel, hda, hok]
      | true =>
        simp [scnRunE, executeInContainer, installDependencies, listWorkspaceFiles,
          containerWsWrite, updateMeta, updateContainerState, getContainerMeta, getContainer,
          getWorkspaceDir, dockerLookup, dockerSet, jsCoalesce, jsOrExitCode,
          registryGet, alookup, aset, adel, hda]

/-- C5: for every execution, the baseline file set is captured from the
workspace before the user exec starts and re-captured immediately after a
successful dependency install (first two conjuncts: generatedFiles equal
the post-run workspace file set minus the stored baseline restricted to
paths under the workspace directory, and the stored baseline is the
listing of the original filesystem, or of the post-install filesystem when
the installer ran and exited 0); consequently (third conjunct) a file
present after the dependency-install phase and under the workspace
directory is never reported in generatedFiles when the install
succeeded. -/
theorem baseline_generated_accounting
    (hash : String → String) (config : SessionConfig)
    (code cp : String) (deps : List String)
    (pf : ExecutionOptions → List (String × List Nat))
    (bic : Bool → List String) (brc : String → Bool → List String) (cf dI : String)
    (di : Bool) (dc : Option String) (bf gf sg : List String) (wd0 im cn : String)
    (ir : Bool) (ca : Nat) (lea : Option Nat)
    (dn dimg : String) (dr : Bool) (wb : Option String) (wf : List String)
    (f : HostFS) (ct : List String) (pl : List PoolEntry)
    (sc : List (String × SessionConfig)) (sh : List (String × List String))
    (il : List (String × List String))
    (ws : Option WorkspaceSharing) (cl ml : Option String)
    (n ms : Nat) (iso ise : String) (ie : Int) (iw : List (String × List Nat))
    (us ues : String) (ux : Option Int) (rws ehw : List (String × List Nat)) :
    (scnRunE hash config code cp deps pf bic brc cf dI di dc bf gf sg wd0 im cn ir ca lea
        dn dimg dr wb wf f ct pl sc sh il ws cl ml
        { now := n, elapsedMs := ms, writeExecExit := some 0, installerStdout := iso,
          installerStderr := ise, installerExit := ie, installWrites := iw,
          userStdout := us, userStderr := ues, userExecExit := ux, runWrites := rws,
          extraHostWrites := ehw }).1.toOption.map (fun o => o.result.generatedFiles) =
      some ((listAllFiles
          (scnRunE hash config code cp deps pf bic brc cf dI di dc bf gf sg wd0 im cn ir ca lea
            dn dimg dr wb wf f ct pl sc sh il ws cl ml
            { now := n, elapsedMs := ms, writeExecExit := some 0, installerStdout := iso,
              installerStderr := ise, installerExit := ie, installWrites := iw,
              userStdout := us, userStderr := ues, userExecExit := ux, runWrites := rws,
              extraHostWrites := ehw }).2.fs cp).filter
        (fun p => strIsPrefixOf cp p &&
          ¬(((getContainerMeta
              (scnRunE hash config code cp deps pf bic brc cf dI di dc bf gf sg wd0 im cn ir ca lea
                dn dimg dr wb wf f ct pl sc sh il ws cl ml
                { now := n, elapsedMs := ms, writeExecExit := some 0, installerStdout := iso,
                  installerStderr := ise, installerExit := ie, installWrites := iw,
                  userStdout := us, userStderr := ues, userExecExit := ux, runWrites := rws,
                  extraHostWrites := ehw }).2 "c1").map (fun mm => mm.baselineFiles)).getD []).contains p)) ∧
    ((getContainerMeta
        (scnRunE hash config code cp deps pf bic brc cf dI di dc bf gf sg wd0 im cn ir ca lea
          dn dimg dr wb wf f ct pl sc sh il ws cl ml
          { now := n, elapsedMs := ms, writeExecExit := some 0, installerStdout := iso,
            installerStderr := ise, installerExit := ie, installWrites := iw,
            userStdout := us, userStderr := ues, userExecExit := ux, runWrites := rws,
            extraHostWrites := ehw }).2 "c1").map (fun mm => mm.baselineFiles)) =
      some ((listAllFiles
          (if (di && (dc == some (calculateDepsChecksum hash deps))) then f
           else if (ie == 0) then
             (match wb with
              | some d => iw.foldl (fun fs wr => writeFile fs (joinPath d wr.1) wr.2)
                  (writeFile f (joinPath d cf) (strToBytes (strTrim code)))
              | none => f)
           else f) cp).filter (fun p => strIsPrefixOf cp p)) ∧
    (∀ p g, (di && (dc == some (calculateDepsChecksum hash deps))) = false → (ie == 0) = true →
      strIsPrefixOf cp p = true →
      p ∈ listAllFiles
          (match wb with
           | some d => iw.foldl (fun fs wr => writeFile fs (joinPath d wr.1) wr.2)
               (writeFile f (joinPath d cf) (strToBytes (strTrim code)))
           | none => f) cp →
      (scnRunE hash config code cp deps pf bic brc cf dI di dc bf gf sg wd0 im cn ir ca lea
          dn dimg dr wb wf f ct pl sc sh il ws cl ml
          { now := n, elapsedMs := ms, writeExecExit := some 0, installerStdout := iso,
            installerStderr := ise, installerExit := ie, installWrites := iw,
            userStdout := us, userStderr := ues, userExecExit := ux, runWrites := rws,
            extraHostWrites := ehw }).1.toOption.map (fun o => o.result.generatedFiles) = some g →
      p ∉ g) := by
  have hmain := baseline_generated_core hash config code cp deps pf bic brc cf dI di dc bf gf sg
    wd0 im cn ir ca lea dn dimg dr wb wf f ct pl sc sh il ws cl ml n ms iso ise ie iw us ues ux
    rws ehw
  refine ⟨hmain.1, hmain.2, ?_⟩
  intro p g hda hok hpre hp hg
  have h2 := hmain.2
  simp only [hda, hok, Bool.false_eq_true, if_false, if_true] at h2
  have h1 := hmain.1
  rw [hg] at h1
  have hge := Option.some.inj h1
  intro hmem
  rw [hge] at hmem
  rw [List.mem_filter] at hmem
  obtain ⟨hmem1, hcond⟩ := hmem
  simp only [h2, Option.getD_some] at hcond
  have hmemL := (List.mem_filter (p := fun q => strIsPrefixOf cp q)).mpr ⟨hp, hpre⟩
  simp [List.elem_iff, hmemL, hpre] at hcond

theorem baseline_generated_accounting_witness :
    "/w/dep.txt" ∉ (["/w/out.txt"] : List String) :=
  (baseline_generated_accounting hashModel
    { strategy := .PER_SESSION, containerConfig := { image := "x" } }
    "c" "/w" ["jq"] (fun _ => []) (fun _ => ["run"]) (fun e _ => [e]) "code.sh" "alpine"
    false none [] [] [] "/w" "img" "cn" false 0 none "dn" "dimg" true (some "/w") []
    { files := [], dirs := [] } [] [] [] [] [] none none none
    1 2 "ISO" "ISE" 0 [("dep.txt", [1])] "US" "UES" (some 0) [("out.txt", [2])] []).2.2
    "/w/dep.txt" ["/w/out.txt"] (by decide) (by decide) (by decide) (by decide) (by decide)

/-- A follow-up run: executeInContainer on a given world, same language
plugin "L" and container "c1", with a possibly different dependency list. -/
def scnFollowUp (hash : String → String)
    (pf : ExecutionOptions → List (String × List Nat))
    (bic : Bool → List String) (brc : String → Bool → List String) (cf dI : String)
    (w : World) (code2 : String) (l : List String)
    (ws : Option WorkspaceSharing) (cl ml : Option String)
    (config : SessionConfig) (cp : String) (env : RunEnv) :
    (Except String RunOutcome) × World :=
  executeInContainer hash
    [{ language := "L", defaultImage := dI, codeFilename := cf, prepareFiles := pf,
       buildInlineCommand := bic, buildRunAppCommand := brc, hasInstaller := true }]
    env w "c1"
    { language := "L", code := code2, dependencies := l, runApp := none,
      workspaceSharing := ws, cpuLimit := cl, memoryLimit := ml }
    config cp

theorem insertSorted_length (x : String) (l : List String) :
    (insertSorted x l).length = l.length + 1 := by
  induction l with
  | nil => rfl
  | cons y ys ih =>
    simp only [insertSorted]
    split
    · rfl
    · simp [ih]

theorem sortStrings_length (l : List String) : (sortStrings l).length = l.length := by
  induction l with
  | nil => rfl
  | cons x xs ih => simp [sortStrings, List.foldr] at ih ⊢; rw [insertSorted_length]; omega

theorem calculateDepsChecksum_congr (hash : String → String) (l1 l2 : List String)
    (hs : sortStrings l1 = sortStrings l2) :
    calculateDepsChecksum hash l1 = calculateDepsChecksum hash l2 := by
  have hl : l1.length = l2.length := by
    rw [← sortStrings_length l1, ← sortStrings_length l2, hs]
  unfold calculateDepsChecksum
  rw [hs, hl]

theorem followUp_skips_install (hash : String → String)
    (pf : ExecutionOptions → List (String × List Nat))
    (bic : Bool → List String) (brc : String → Bool → List String) (cf dI : String)
    (w : World) (code2 : String) (l : List String)
    (ws : Option WorkspaceSharing) (cl ml : Option String)
    (config : SessionConfig) (cp : String) (env : RunEnv)
    (hmm : (getContainerMeta w "c1").map
        (fun mm => (mm.depsInstalled, mm.depsChecksum, mm.sessionId)) =
      some (true, some (calculateDepsChecksum hash l), "s"))
    (hd : (dockerLookup w "c1").map (fun c => c.id) = some "c1")
    (hsc : getContainer w "s" = some "c1")
    (hwe : env.writeExecExit = some 0) :
    (scnFollowUp hash pf bic brc cf dI w code2 l ws cl ml config cp env).1.toOption.map
      (fun o => (o.installerInvoked, o.result.dependencyStdout, o.result.dependencyStderr)) =
      some (false, "", "") := by
  obtain ⟨m, hm, hp⟩ := Option.map_eq_some'.mp hmm
  obtain ⟨c, hc, hcid⟩ := Option.map_eq_some'.mp hd
  simp only [Prod.mk.injEq] at hp
  obtain ⟨hmi, hmc, hsid⟩ := hp
  have hm' : alookup w.sm.containerMeta "c1" = some m := hm
  have hc' : alookup w.docker "c1" = some c := hc
  have hsc' : alookup w.sm.sessionContainers "s" = some "c1" := hsc
  cases hwb : c.wsBind with
  | none =>
    simp [scnFollowUp, executeInContainer, installDependencies, containerWsWrite,
      updateMeta, updateContainerState, getContainerMeta, getContainer, getWorkspaceDir,
      dockerLookup, dockerSet, jsCoalesce, jsOrExitCode, registryGet, listWorkspaceFiles,
      alookup_aset_self, hm', hc', hsc', hsid, hmi, hmc, hcid, hwe, hwb]
    exact ⟨_, rfl, rfl, rfl, rfl⟩
  | some d =>
    simp [scnFollowUp, executeInContainer, installDependencies, containerWsWrite,
      updateMeta, updateContainerState, getContainerMeta, getContainer, getWorkspaceDir,
      dockerLookup, dockerSet, jsCoalesce, jsOrExitCode, registryGet, listWorkspaceFiles,
      alookup_aset_self, hm', hc', hsc', hsid, hmi, hmc, hcid, hwe, hwb]
    exact ⟨_, rfl, rfl, rfl, rfl⟩

theorem followUp_forces_install (hash : String → String)
    (pf : ExecutionOptions → List (String × List Nat))
    (bic : Bool → List String) (brc : String → Bool → List String) (cf dI : String)
    (w : World) (code2 : String) (l : List String)
    (ws : Option WorkspaceSharing) (cl ml : Option String)
    (config : SessionConfig) (cp : String) (env : RunEnv)
    (di0 : Bool) (dc0 : Option String)
    (hmm : (getContainerMeta w "c1").map
        (fun mm => (mm.depsInstalled, mm.depsChecksum, mm.sessionId)) =
      some (di0, dc0, "s"))
    (hda : (di0 && (dc0 == some (calculateDepsChecksum hash l))) = false)
    (hd : (dockerLookup w "c1").map (fun c => c.id) = some "c1")
    (hsc : getContainer w "s" = some "c1")
    (hwe : env.writeExecExit = some 0) :
    (scnFollowUp hash pf bic brc cf dI w code2 l ws cl ml config cp env).1.toOption.map
      (fun o => o.installerInvoked) = some true := by
  obtain ⟨m, hm, hp⟩ := Option.map_eq_some'.mp hmm
  obtain ⟨c, hc, hcid⟩ := Option.map_eq_some'.mp hd
  simp only [Prod.mk.injEq] at hp
  obtain ⟨hmi, hmc, hsid⟩ := hp
  have hm' : alookup w.sm.containerMeta "c1" = some m := hm
  have hc' : alookup w.docker "c1" = some c := hc
  have hsc' : alookup w.sm.sessionContainers "s" = some "c1" := hsc
  cases hwb : c.wsBind with
  | none =>
    cases hie : (env.installerExit == 0) with
    | false =>
      simp [scnFollowUp, executeInContainer, installDependencies, containerWsWrite,
        updateMeta, updateContainerState, getContainerMeta, getContainer, getWorkspaceDir,
        dockerLookup, dockerSet, jsCoalesce, jsOrExitCode, registryGet, listWorkspaceFiles,
        alookup_aset_self, hm', hc', hsc', hsid, hmi, hmc, hcid, hwe, hwb, hda, hie]
      exact ⟨_, rfl, rfl⟩
    | true =>
      simp [scnFollowUp, executeInContainer, installDependencies, containerWsWrite,
        updateMeta, updateContainerState, getContainerMeta, getContainer, getWorkspaceDir,
        dockerLookup, dockerSet, jsCoalesce, jsOrExitCode, registryGet, listWorkspaceFiles,
        alookup_aset_self, hm', hc', hsc', hsid, hmi, hmc, hcid, hwe, hwb, hda, hie]
      exact ⟨_, rfl, rfl⟩
  | some d =>
    cases hie : (env.installerExit == 0) with
    | false =>
      simp [scnFollowUp, executeInContainer, installDependencies, containerWsWrite,
        updateMeta, updateContainerState, getContainerMeta, getContainer, getWorkspaceDir,
        dockerLookup, dockerSet, jsCoalesce, jsOrExitCode, registryGet, listWorkspaceFiles,
        alookup_aset_self, hm', hc', hsc', hsid, hmi, hmc, hcid, hwe, hwb, hda, hie]
      exact ⟨_, rfl, rfl⟩
    | true =>
      simp [scnFollowUp, executeInContainer, installDependencies, containerWsWrite,
        updateMeta, updateContainerState, getContainerMeta, getContainer, getWorkspaceDir,
        dockerLookup, dockerSet, jsCoalesce, jsOrExitCode, registryGet, listWorkspaceFiles,
        alookup_aset_self, hm', hc', hsc', hsid, hmi, hmc, hcid, hwe, hwb, hda, hie]
      exact ⟨_, rfl, rfl⟩

set_option maxHeartbeats 2000000 in
/-- C4: checksum-based dependency caching. After a first run on container
"c1" whose cache misses (`hda1`) and whose installer exits 0, the installer
was invoked and the stored meta has depsInstalled=true with the checksum of
the first dependency list; a second run whose dependency list is equal
after sorting (`hs`) skips the dependency phase (installer not invoked,
dependencyStdout and dependencyStderr empty); and a third run whose
checksum differs from the stored one (`h3`) invokes the installer again. -/
theorem deps_checksum_caching
    (hash : String → String) (config : SessionConfig)
    (code code2 cp : String) (l1 l2 l3 : List String)
    (pf : ExecutionOptions → List (String × List Nat))
    (bic : Bool → List String) (brc : String → Bool → List String) (cf dI : String)
    (di : Bool) (dc : Option String) (bf gf sg : List String) (wd0 im cn : String)
    (ir : Bool) (ca : Nat) (lea : Option Nat)
    (dn dimg : String) (dr : Bool) (wb : Option String) (wf : List String)
    (f : HostFS) (ct : List String) (pl : List PoolEntry)
    (sc : List (String × SessionConfig)) (sh : List (String × List String))
    (il : List (String × List String))
    (ws : Option WorkspaceSharing) (cl ml : Option String)
    (n ms : Nat) (iso ise : String) (iw : List (String × List Nat))
    (us ues : String) (ux : Option Int) (rws ehw : List (String × List Nat))
    (n2 ms2 : Nat) (iso2 ise2 : String) (ie2 : Int) (iw2 : List (String × List Nat))
    (us2 ues2 : String) (ux2 : Option Int) (rws2 ehw2 : List (String × List Nat))
    (hda1 : (di && (dc == some (calculateDepsChecksum hash l1))) = false)
    (hs : sortStrings l1 = sortStrings l2)
    (h3 : ((some (calculateDepsChecksum hash l1) : Option String) ==
           some (calculateDepsChecksum hash l3)) = false) :
    (scnRunE hash config code cp l1 pf bic brc cf dI di dc bf gf sg wd0 im cn ir ca lea
        dn dimg dr wb wf f ct pl sc sh il ws cl ml
        { now := n, elapsedMs := ms, writeExecExit := some 0, installerStdout := iso,
          installerStderr := ise, installerExit := 0, installWrites := iw,
          userStdout := us, userStderr := ues, userExecExit := ux, runWrites := rws,
          extraHostWrites := ehw }).1.toOption.map (fun o => o.installerInvoked) = some true ∧
    (getContainerMeta
        (scnRunE hash config code cp l1 pf bic brc cf dI di dc bf gf sg wd0 im cn ir ca lea
          dn dimg dr wb wf f ct pl sc sh il ws cl ml
          { now := n, elapsedMs := ms, writeExecExit := some 0, installerStdout := iso,
            installerStderr := ise, installerExit := 0, installWrites := iw,
            userStdout := us, userStderr := ues, userExecExit := ux, runWrites := rws,
            extraHostWrites := ehw }).2 "c1").map
      (fun mm => (mm.depsInstalled, mm.depsChecksum)) =
      some (true, some (calculateDepsChecksum hash l1)) ∧
    (scnFollowUp hash pf bic brc cf dI
        (scnRunE hash config code cp l1 pf bic brc cf dI di dc bf gf sg wd0 im cn ir ca lea
          dn dimg dr wb wf f ct pl sc sh il ws cl ml
          { now := n, elapsedMs := ms, writeExecExit := some 0, installerStdout := iso,
            installerStderr := ise, installerExit := 0, installWrites := iw,
            userStdout := us, userStderr := ues, userExecExit := ux, runWrites := rws,
            extraHostWrites := ehw }).2 code2 l2 ws cl ml config cp
        { now := n2, elapsedMs := ms2, writeExecExit := some 0, installerStdout := iso2,
          installerStderr := ise2, installerExit := ie2, installWrites := iw2,
          userStdout := us2, userStderr := ues2, userExecExit := ux2, runWrites := rws2,
          extraHostWrites := ehw2 }).1.toOption.map
      (fun o => (o.installerInvoked, o.result.dependencyStdout, o.result.dependencyStderr)) =
      some (false, "", "") ∧
    (scnFollowUp hash pf bic brc cf dI
        (scnRunE hash config code cp l1 pf bic brc cf dI di dc bf gf sg wd0 im cn ir ca lea
          dn dimg dr wb wf f ct pl sc sh il ws cl ml
          { now := n, elapsedMs := ms, writeExecExit := some 0, installerStdout := iso,
            installerStderr := ise, installerExit := 0, installWrites := iw,
            userStdout := us, userStderr := ues, userExecExit := ux, runWrites := rws,
            extraHostWrites := ehw }).2 code2 l3 ws cl ml config cp
        { now := n2, elapsedMs := ms2, writeExecExit := some 0, installerStdout := iso2,
          installerStderr := ise2, installerExit := ie2, installWrites := iw2,
          userStdout := us2, userStderr := ues2, userExecExit := ux2, runWrites := rws2,
          extraHostWrites := ehw2 }).1.toOption.map
      (fun o => o.installerInvoked) = some true := by
  have hcheq := calculateDepsChecksum_congr hash l1 l2 hs
  have hall :
      (getContainerMeta
          (scnRunE hash config code cp l1 pf bic brc cf dI di dc bf gf sg wd0 im cn ir ca lea
            dn dimg dr wb wf f ct pl sc sh il ws cl ml
            { now := n, elapsedMs := ms, writeExecExit := some 0, installerStdout := iso,
              installerStderr := ise, installerExit := 0, installWrites := iw,
              userStdout := us, userStderr := ues, userExecExit := ux, runWrites := rws,
              extraHostWrites := ehw }).2 "c1").map
        (fun mm => (mm.depsInstalled, mm.depsChecksum, mm.sessionId)) =
        some (true, some (calculateDepsChecksum hash l1), "s") ∧
      (dockerLookup
          (scnRunE hash config code cp l1 pf bic brc cf dI di dc bf gf sg wd0 im cn ir ca lea
            dn dimg dr wb wf f ct pl sc sh il ws cl ml
            { now := n, elapsedMs := ms, writeExecExit := some 0, installerStdout := iso,
              installerStderr := ise, installerExit := 0, installWrites := iw,
              userStdout := us, userStderr := ues, userExecExit := ux, runWrites := rws,
              extraHostWrites := ehw }).2 "c1").map (fun c => c.id) = some "c1" ∧
      getContainer
          (scnRunE hash config code cp l1 pf bic brc cf dI di dc bf gf sg wd0 im cn ir ca lea
            dn dimg dr wb wf f ct pl sc sh il ws cl ml
            { now := n, elapsedMs := ms, writeExecExit := some 0, installerStdout := iso,
              installerStderr := ise, installerExit := 0, installWrites := iw,
              userStdout := us, userStderr := ues, userExecExit := ux, runWrites := rws,
              extraHostWrites := ehw }).2 "s" = some "c1" := by
    refine ⟨?_, ?_, ?_⟩ <;> cases wb <;>
      simp [scnRunE, executeInContainer, installDependencies, listWorkspaceFiles,
        containerWsWrite, updateMeta, updateContainerState, getContainerMeta, getContainer,
        getWorkspaceDir, dockerLookup, dockerSet, jsCoalesce, jsOrExitCode,
        registryGet, alookup, aset, adel, hda1]
  refine ⟨?_, ?_, ?_, ?_⟩
  · cases wb with
    | none =>
      simp [scnRunE, executeInContainer, installDependencies, listWorkspaceFiles,
        containerWsWrite, updateMeta, updateContainerState, getContainerMeta, getContainer,
        getWorkspaceDir, dockerLookup, dockerSet, jsCoalesce, jsOrExitCode,
        registryGet, alookup, aset, adel, hda1]
      exact ⟨_, rfl, rfl⟩
    | some d =>
      simp [scnRunE, executeInContainer, installDependencies, listWorkspaceFiles,
        containerWsWrite, updateMeta, updateContainerState, getContainerMeta, getContainer,
        getWorkspaceDir, dockerLookup, dockerSet, jsCoalesce, jsOrExitCode,
        registryGet, alookup, aset, adel, hda1]
      exact ⟨_, rfl, rfl⟩
  · cases wb with
    | none =>
      simp [scnRunE, executeInContainer, installDependencies, listWorkspaceFiles,
        containerWsWrite, updateMeta, updateContainerState, getContainerMeta, getContainer,
        getWorkspaceDir, dockerLookup, dockerSet, jsCoalesce, jsOrExitCode,
        registryGet, alookup, aset, adel, hda1]
    | some d =>
      simp [scnRunE, executeInContainer, installDependencies, listWorkspaceFiles,
        containerWsWrite, updateMeta, updateContainerState, getContainerMeta, getContainer,
        getWorkspaceDir, dockerLookup, dockerSet, jsCoalesce, jsOrExitCode,
        registryGet, alookup, aset, adel, hda1]
  · have h := hall.1
    rw [hcheq] at h
    exact followUp_skips_install hash pf bic brc cf dI _ code2 l2 ws cl ml config cp _
      h hall.2.1 hall.2.2 rfl
  · exact followUp_forces_install hash pf bic brc cf dI _ code2 l3 ws cl ml config cp _
      true (some (calculateDepsChecksum hash l1)) hall.1 (by simp [h3]) hall.2.1 hall.2.2 rfl

theorem deps_checksum_caching_witness :
    (scnFollowUp hashModel (fun _ => []) (fun _ => ["run"]) (fun e _ => [e]) "code.sh" "alpine"
        (scnRunE hashModel { strategy := .PER_SESSION, containerConfig := { image := "x" } }
          "c" "/w" ["b", "a"] (fun _ => []) (fun _ => ["run"]) (fun e _ => [e]) "code.sh" "alpine"
          false none [] [] [] "/w" "img" "cn" false 0 none "dn" "dimg" true none []
          { files := [], dirs := [] } [] [] [] [] [] none none none
          { now := 1, elapsedMs := 2, writeExecExit := some 0, installerStdout := "ISO",
            installerStderr := "ISE", installerExit := 0, installWrites := [],
            userStdout := "US", userStderr := "UES", userExecExit := some 0, runWrites := [],
            extraHostWrites := [] }).2 "c2code" ["a", "b"] none none none
        { strategy := .PER_SESSION, containerConfig := { image := "x" } } "/w"
        { now := 3, elapsedMs := 4, writeExecExit := some 0, installerStdout := "I2",
          installerStderr := "E2", installerExit := 0, installWrites := [],
          userStdout := "U2", userStderr := "V2", userExecExit := some 0, runWrites := [],
          extraHostWrites := [] }).1.toOption.map
      (fun o => (o.installerInvoked, o.result.dependencyStdout, o.result.dependencyStderr)) =
      some (false, "", "") :=
  (deps_checksum_caching hashModel { strategy := .PER_SESSION, containerConfig := { image := "x" } }
    "c" "c2code" "/w" ["b", "a"] ["a", "b"] ["z"]
    (fun _ => []) (fun _ => ["run"]) (fun e _ => [e]) "code.sh" "alpine"
    false none [] [] [] "/w" "img" "cn" false 0 none "dn" "dimg" true none []
    { files := [], dirs := [] } [] [] [] [] [] none none none
    1 2 "ISO" "ISE" [] "US" "UES" (some 0) [] []
    3 4 "I2" "E2" 0 [] "U2" "V2" (some 0) [] []
    (by decide) (by decide) (by decide)).2.2.1

end InterpreterTools
